import Mathlib

/-!
Verification of the RoBoRa command / firmware-update protocol layer.

The definitions below are a shallow embedding of the corresponding C++
functions of the repository (file and function names are kept).  External
collaborators (flash Update library, millis, partition lookup) enter as
explicit oracle records passed to each step, so every definition is an
executable Lean function.
-/

namespace RoBoRa

/-! ## Update session (src/src/ota.cpp)

The two upload callbacks installed by `mountUpdateOctet` (endpoint `/ota`)
and `mountUpdateMultipart` (endpoint `/update`) share the file-level statics
`written` and `lastProgMs` and the lambda-level statics `began` / `maxSize`.
They are gathered in `OtaState`.  Every observable action of a callback
invocation (WebSocket broadcast, flash write, HTTP response, reboot request)
is recorded as an `OtaEvent`. -/

/-- The mutable statics of ota.cpp: `began`, `maxSize` (capacity of the
resolved partition), the global `written` counter, and `lastProgMs`. -/
structure OtaState where
  began : Bool
  maxSize : Nat
  written : Nat
  lastProgMs : Nat
deriving Repr, DecidableEq

/-- State before the first upload ever: statics zero-initialised. -/
def otaInit : OtaState := ⟨false, 0, 0, 0⟩

/-- Observable effects of one upload-callback invocation, in program order.
`reject`, `start`, `progress`, `endEvt` are the `wsOtaReject` / `wsOtaStart` /
`wsOtaProgress` / `wsOtaEnd` broadcasts; `writeFlash n` is a call to
`Update.write` that reported `n` bytes written; `abortUpd` is `Update.abort`;
`httpResp` is `request->send`; `rebootReq` is `scheduleReboot`. -/
inductive OtaEvent where
  | reject (reason : String)
  | start (isFs : Bool) (total max : Nat)
  | beginUpd (size : Nat)
  | writeFlash (n : Nat)
  | progress (done total : Nat)
  | abortUpd
  | endEvt (ok : Bool)
  | httpResp (code : Nat) (body : String)
  | rebootReq (ms : Nat)
deriving Repr, DecidableEq

/-- One invocation of the `/ota` octet upload callback:
`(request, data, len, index, total)` plus the `X-Update-Target` header
resolved to `isFs` (the data bytes themselves are irrelevant here, only
their count `len` matters). -/
structure OctetChunk where
  index : Nat
  len : Nat
  total : Nat
  isFs : Bool
deriving Repr, DecidableEq

/-- One invocation of the `/update` multipart upload callback:
`(request, filename, index, data, len, final)` plus the target header and
the request content length. -/
structure MultipartChunk where
  index : Nat
  len : Nat
  final : Bool
  contentLength : Nat
  isFs : Bool
deriving Repr, DecidableEq

/-- Results returned by the external collaborators during one callback
invocation: `getTargetPartition` (capacity of the partition when found),
`Update.begin`, `Update.write` (bytes actually written), `Update.end`,
and `millis()`. -/
structure OtaOracle where
  partFound : Option Nat
  beginOk : Bool
  writeRet : Nat
  endOk : Bool
  now : Nat
deriving Repr, DecidableEq

/-- The rate-limited progress broadcast: emitted only when at least 150 ms
have passed since `lastProgMs` (ota.cpp lines 237-241 / 331-335). -/
def otaProgressStep (s : OtaState) (now done total : Nat) : OtaState × List OtaEvent :=
  if 150 ≤ now - s.lastProgMs then
    ({ s with lastProgMs := now }, [.progress done total])
  else (s, [])

/-- `index == 0` block of the `/ota` octet upload callback
(ota.cpp lines 281-313).  `Sum.inl` is an early `return`, `Sum.inr`
falls through to the write phase. -/
def octetPhaseA (s : OtaState) (c : OctetChunk) (o : OtaOracle) :
    (OtaState × List OtaEvent) ⊕ (OtaState × List OtaEvent) :=
  if c.index = 0 then
    let s1 := { s with written := 0 }
    match o.partFound with
    | none => .inl (s1, [.reject "Partition not found", .httpResp 500 "Partition not found"])
    | some cap =>
      let s2 := { s1 with maxSize := cap }
      if c.total ≠ 0 ∧ cap < c.total then
        .inl (s2, [.reject "Image too big for partition", .httpResp 400 "Too big"])
      else
        if o.beginOk then
          .inr ({ s2 with began := true }, [.start c.isFs c.total cap, .beginUpd cap])
        else
          .inl (s2, [.start c.isFs c.total cap, .reject "Update.begin failed",
                     .httpResp 500 "FAIL begin"])
  else .inr (s, [])

/-- `began && len > 0` block of the `/ota` octet upload callback
(ota.cpp lines 315-336): capacity guard, flash write, rate-limited
progress. -/
def octetPhaseB (s : OtaState) (c : OctetChunk) (o : OtaOracle) :
    (OtaState × List OtaEvent) ⊕ (OtaState × List OtaEvent) :=
  if s.began ∧ 0 < c.len then
    if s.maxSize < s.written + c.len then
      .inl (s, [.reject "Stream exceeds partition", .abortUpd, .httpResp 400 "Too big"])
    else
      let s1 := { s with written := s.written + o.writeRet }
      let p := otaProgressStep s1 o.now s1.written (if c.total ≠ 0 then c.total else s1.maxSize)
      .inr (p.1, .writeFlash o.writeRet :: p.2)
  else .inr (s, [])

/-- Completion block of the `/ota` octet upload callback
(ota.cpp lines 338-353): fires when `index + len == total`. -/
def octetPhaseC (s : OtaState) (c : OctetChunk) (o : OtaOracle) :
    OtaState × List OtaEvent :=
  if s.began ∧ c.index + c.len = c.total then
    if o.endOk then
      ({ s with began := false },
       [.progress s.written (if c.total ≠ 0 then c.total else s.maxSize),
        .httpResp 200 "OK", .endEvt true, .rebootReq 700])
    else
      ({ s with began := false }, [.httpResp 500 "FAIL end", .endEvt false])
  else (s, [])

/-- One invocation of the `/ota` octet upload callback (mountUpdateOctet,
ota.cpp lines 269-354). -/
def mountUpdateOctetStep (s : OtaState) (c : OctetChunk) (o : OtaOracle) :
    OtaState × List OtaEvent :=
  match octetPhaseA s c o with
  | .inl r => r
  | .inr (s1, e1) =>
    match octetPhaseB s1 c o with
    | .inl (s2, e2) => (s2, e1 ++ e2)
    | .inr (s2, e2) =>
      let r := octetPhaseC s2 c o
      (r.1, e1 ++ e2 ++ r.2)

/-- A whole sequence of `/ota` octet chunks, with per-chunk oracle results. -/
def mountUpdateOctetRun (s : OtaState) (cs : List (OctetChunk × OtaOracle)) :
    OtaState × List OtaEvent :=
  match cs with
  | [] => (s, [])
  | (c, o) :: rest =>
    let r1 := mountUpdateOctetStep s c o
    let r2 := mountUpdateOctetRun r1.1 rest
    (r2.1, r1.2 ++ r2.2)

/-- `index == 0` block of the `/update` multipart upload callback
(ota.cpp lines 196-220).  Note: unlike the octet endpoint there is no
comparison of the declared total (`request->contentLength()`) against the
partition capacity, and `written` is reset only after `Update.begin`
succeeds. -/
def multipartPhaseA (s : OtaState) (c : MultipartChunk) (o : OtaOracle) :
    (OtaState × List OtaEvent) ⊕ (OtaState × List OtaEvent) :=
  if c.index = 0 then
    match o.partFound with
    | none => .inl (s, [.reject "Partition not found", .abortUpd])
    | some cap =>
      let s1 := { s with maxSize := cap }
      if o.beginOk then
        .inr ({ s1 with began := true, written := 0 },
              [.start c.isFs c.contentLength cap, .beginUpd cap])
      else
        .inl (s1, [.start c.isFs c.contentLength cap, .reject "Update.begin failed"])
  else .inr (s, [])

/-- `began && len > 0` block of the `/update` multipart upload callback
(ota.cpp lines 222-242). -/
def multipartPhaseB (s : OtaState) (c : MultipartChunk) (o : OtaOracle) :
    (OtaState × List OtaEvent) ⊕ (OtaState × List OtaEvent) :=
  if s.began ∧ 0 < c.len then
    if s.maxSize < s.written + c.len then
      .inl (s, [.reject "Stream exceeds partition size", .abortUpd])
    else
      let s1 := { s with written := s.written + o.writeRet }
      let p := otaProgressStep s1 o.now s1.written
                 (if c.contentLength ≠ 0 then c.contentLength else s1.maxSize)
      .inr (p.1, .writeFlash o.writeRet :: p.2)
  else .inr (s, [])

/-- `final && began` block of the `/update` multipart upload callback
(ota.cpp lines 244-253): `Update.end`, unconditional progress broadcast,
`began` cleared.  (The HTTP result and the `wsOtaEnd` broadcast happen in
the separate request-completion handler.) -/
def multipartPhaseC (s : OtaState) (c : MultipartChunk) (_o : OtaOracle) :
    OtaState × List OtaEvent :=
  if c.final ∧ s.began then
    ({ s with began := false },
     [.progress s.written (if c.contentLength ≠ 0 then c.contentLength else s.maxSize)])
  else (s, [])

/-- One invocation of the `/update` multipart upload callback
(mountUpdateMultipart, ota.cpp lines 175-255). -/
def mountUpdateMultipartStep (s : OtaState) (c : MultipartChunk) (o : OtaOracle) :
    OtaState × List OtaEvent :=
  match multipartPhaseA s c o with
  | .inl r => r
  | .inr (s1, e1) =>
    match multipartPhaseB s1 c o with
    | .inl (s2, e2) => (s2, e1 ++ e2)
    | .inr (s2, e2) =>
      let r := multipartPhaseC s2 c o
      (r.1, e1 ++ e2 ++ r.2)

/-- A whole sequence of `/update` multipart chunks. -/
def mountUpdateMultipartRun (s : OtaState) (cs : List (MultipartChunk × OtaOracle)) :
    OtaState × List OtaEvent :=
  match cs with
  | [] => (s, [])
  | (c, o) :: rest =>
    let r1 := mountUpdateMultipartStep s c o
    let r2 := mountUpdateMultipartRun r1.1 rest
    (r2.1, r1.2 ++ r2.2)

/-! ## Frame accumulator pool (src/src/websocket.cpp)

`WsAcc`, the fixed pool `s_acc[WS_MAX_CLIENTS]`, `WsGetAcc`, `WsResetAcc`,
`WsReleaseAcc` and the WS_EVT_DATA part of `onWsEvent` are embedded below.
The pool is a list of `WS_MAX_CLIENTS` slots; the C functions that walk the
array and mutate one slot become structural recursions that rebuild the
list.  A data frame carries the fields of `AwsFrameInfo` that the code
reads: `index` (0 on the first chunk of a message), `opcode`, `len`
(the announced total message length, stored in `expectedLen`), `final`,
plus the chunk payload bytes. -/

def WS_MAX_CLIENTS : Nat := 4

def WS_MAX_PAYLOAD : Nat := 8 * 1024

def WS_TEXT : Nat := 1

def WS_BINARY : Nat := 2

/-- One slot of the accumulator pool (struct sWsAcc). -/
structure WsAcc where
  id : Nat
  inUse : Bool
  firstOpcode : Nat
  expectedLen : Nat
  buf : List Nat
deriving Repr, DecidableEq

/-- A default-initialised slot. -/
def wsAccDefault : WsAcc := ⟨0, false, 0, 0, []⟩

/-- The pool at startup: `static WsAcc s_acc[WS_MAX_CLIENTS]`. -/
def initPool : List WsAcc := List.replicate WS_MAX_CLIENTS wsAccDefault

/-- A slot as initialised by the allocation branch of `WsGetAcc`. -/
def wsFreshAcc (id : Nat) : WsAcc := ⟨id, true, 0, 0, []⟩

/-- `WsResetAcc`: clear buffer and per-message state, keep the binding. -/
def WsResetAcc (a : WsAcc) : WsAcc := { a with buf := [], expectedLen := 0, firstOpcode := 0 }

/-- First loop of `WsGetAcc`: the slot bound to `id`, if any. -/
def slotFor : List WsAcc → Nat → Option WsAcc
  | [], _ => none
  | a :: rest, id => if a.inUse && a.id == id then some a else slotFor rest id

/-- Second loop of `WsGetAcc`: bind the first free slot to `id`
(initialising it), or fail when the pool is exhausted. -/
def allocAcc : List WsAcc → Nat → Option (List WsAcc)
  | [], _ => none
  | a :: rest, id =>
    if !a.inUse then some (wsFreshAcc id :: rest)
    else (allocAcc rest id).map (a :: ·)

/-- `WsGetAcc`: find the accumulator bound to `id` or bind a free slot;
returns the (possibly updated) pool together with the value of the slot
the C function returns a pointer to. -/
def WsGetAcc (pool : List WsAcc) (id : Nat) : Option (List WsAcc × WsAcc) :=
  match slotFor pool id with
  | some a => some (pool, a)
  | none =>
    match allocAcc pool id with
    | some pool1 => some (pool1, wsFreshAcc id)
    | none => none

/-- Write back the slot bound to `id` (the effect of mutating through the
pointer `WsGetAcc` returned). -/
def putAcc : List WsAcc → Nat → WsAcc → List WsAcc
  | [], _, _ => []
  | a :: rest, id, b =>
    if a.inUse && a.id == id then b :: rest else a :: putAcc rest id b

/-- `WsReleaseAcc`: free the slot bound to `id` (keeps the stale id, as the
C code does). -/
def WsReleaseAcc : List WsAcc → Nat → List WsAcc
  | [], _ => []
  | a :: rest, id =>
    if a.inUse && a.id == id then
      { a with inUse := false, buf := [], expectedLen := 0, firstOpcode := 0 } :: rest
    else a :: WsReleaseAcc rest id

/-- A WS_EVT_DATA delivery: the fields of `AwsFrameInfo` read by `onWsEvent`
plus the client id and the chunk bytes. -/
structure Frame where
  id : Nat
  index : Nat
  opcode : Nat
  declLen : Nat
  final : Bool
  payload : List Nat
deriving Repr, DecidableEq

/-- Messages the websocket layer emits while handling frames:
`sendError` is `ws_cmd_error` to the offending client, `helloMsg` is
`ws_connect_hello`, `dispatchText` / `dispatchBinary` hand a completed
message to `handleWsMessage` / `handleWsBinary` (for text, the code pushes
a NUL and passes `size - 1` bytes, i.e. exactly the accumulated buffer). -/
inductive WsOut where
  | sendError (id : Nat) (msg : String)
  | helloMsg (id : Nat)
  | dispatchText (id : Nat) (msg : List Nat)
  | dispatchBinary (id : Nat) (msg : List Nat)
deriving Repr, DecidableEq

/-- The client a websocket output is addressed to / originates from. -/
def outId : WsOut → Nat
  | .sendError i _ => i
  | .helloMsg i => i
  | .dispatchText i _ => i
  | .dispatchBinary i _ => i

/-- Whether an output forwards a completed message to the dispatcher. -/
def isDispatchOut : WsOut → Bool
  | .dispatchText _ _ => true
  | .dispatchBinary _ _ => true
  | _ => false

/-- The body of the WS_EVT_DATA branch of `onWsEvent` acting on the slot
`WsGetAcc` resolved (websocket.cpp lines 680-720): first-chunk reset and
oversize check, unconditional append, and on the final chunk the dispatch
on the opcode of the first frame followed by `WsResetAcc`. -/
def accFrameStep (a0 : WsAcc) (f : Frame) : WsAcc × List WsOut :=
  let a1 := if f.index = 0 then
    { WsResetAcc a0 with firstOpcode := f.opcode, expectedLen := f.declLen }
  else a0
  if f.index = 0 ∧ WS_MAX_PAYLOAD < a1.expectedLen then
    (WsResetAcc a1, [.sendError f.id "payload too large"])
  else
    let a2 := { a1 with buf := a1.buf ++ f.payload }
    if f.final = false then (a2, [])
    else if a2.firstOpcode = WS_TEXT then
      (WsResetAcc a2, [.dispatchText f.id a2.buf])
    else if a2.firstOpcode = WS_BINARY then
      (WsResetAcc a2, [.dispatchBinary f.id a2.buf])
    else
      (WsResetAcc a2, [.sendError f.id "unsupported opcode"])

/-- WS_EVT_DATA branch of `onWsEvent`: resolve the accumulator (erroring
with "too many ws clients" when the pool is exhausted), run the frame body
on it, write the slot back. -/
def onWsEventData (pool : List WsAcc) (f : Frame) : List WsAcc × List WsOut :=
  match WsGetAcc pool f.id with
  | none => (pool, [.sendError f.id "too many ws clients"])
  | some (pool1, a) =>
    let r := accFrameStep a f
    (putAcc pool1 f.id r.1, r.2)

/-- A websocket event as delivered to `onWsEvent`. -/
inductive WsEvent where
  | connect (id : Nat)
  | disconnect (id : Nat)
  | data (f : Frame)

/-- `onWsEvent` (websocket.cpp lines 653-721). -/
def onWsEvent (pool : List WsAcc) (e : WsEvent) : List WsAcc × List WsOut :=
  match e with
  | .connect id =>
    match WsGetAcc pool id with
    | some (pool1, a) => (putAcc pool1 id (WsResetAcc a), [.helloMsg id])
    | none => (pool, [.helloMsg id])
  | .disconnect id => (WsReleaseAcc pool id, [])
  | .data f => onWsEventData pool f

/-- Deliver a list of data frames in order, concatenating the outputs. -/
def wsRunFrames (pool : List WsAcc) (fs : List Frame) : List WsAcc × List WsOut :=
  match fs with
  | [] => (pool, [])
  | f :: rest =>
    let r := onWsEventData pool f
    let r2 := wsRunFrames r.1 rest
    (r2.1, r.2 ++ r2.2)

/-- Per-client reference semantics: fold the frame body over one client's
frames only, allocating a fresh slot at the first frame if the client has
none yet. -/
def accRunFromOpt (s : Option WsAcc) (id : Nat) (fs : List Frame) :
    Option WsAcc × List WsOut :=
  match fs with
  | [] => (s, [])
  | f :: rest =>
    let r := accFrameStep (s.getD (wsFreshAcc id)) f
    let r2 := accRunFromOpt (some r.1) id rest
    (r2.1, r.2 ++ r2.2)

/-- The ids of the slots currently in use. -/
def inUseIds (pool : List WsAcc) : List Nat :=
  (pool.filter (fun a => a.inUse)).map (fun a => a.id)

/-- Pool well-formedness: in-use slots are bound to pairwise distinct ids. -/
def PoolWF (pool : List WsAcc) : Prop := (inUseIds pool).Nodup

/-- Continuation frames of one message from client `i`: every frame has
`index ≠ 0` and only the last one has `final` set. -/
def contFramesOk (i : Nat) : List Frame → Bool
  | [] => false
  | f :: rest =>
    f.id == i && decide (f.index ≠ 0) &&
    (match rest with
     | [] => f.final
     | _ :: _ => !f.final && contFramesOk i rest)

/-- A complete TEXT message from client `i` within the payload limit:
a first frame with `index = 0`, opcode TEXT and in-bounds declared length,
followed by continuation frames, `final` exactly on the last frame. -/
def oneMsgOk (i : Nat) : List Frame → Bool
  | [] => false
  | f :: rest =>
    f.id == i && f.index == 0 && f.opcode == WS_TEXT &&
    decide (f.declLen ≤ WS_MAX_PAYLOAD) &&
    (match rest with
     | [] => f.final
     | _ :: _ => !f.final && contFramesOk i rest)

/-! ## Command dispatcher and handlers (src/src/websocket.cpp)

A parsed ArduinoJson document is modelled as an association list of fields
over a small JSON value type.  Handler side effects on the excluded
collaborators (motors, configuration, function keys, display) are recorded
as `HAct` actions; replies are documents whose relevant fields are strings,
modelled as association lists, always built with `CMD` first exactly as the
handlers do. -/

/-- JSON values as far as the handlers inspect them. -/
inductive JVal where
  | jnull
  | jbool (b : Bool)
  | jint (n : Int)
  | jstr (s : String)
  | jarr (xs : List JVal)
deriving Repr, BEq

/-- A parsed JSON object document. -/
abbrev Jdoc := List (String × JVal)

/-- A reply document (all reply fields the handlers build are strings). -/
abbrev Reply := List (String × String)

/-- Member access `doc[k]` on an object (first binding wins). -/
def jlookup : Jdoc → String → Option JVal
  | [], _ => none
  | (k2, v) :: rest, k => if k2 == k then some v else jlookup rest k

/-- `doc[k] | dflt` for a `const char*` default: the member as a string
when it is one, otherwise the default. -/
def jstrOr (d : Jdoc) (k : String) (dflt : String) : String :=
  match jlookup d k with
  | some (.jstr s) => s
  | _ => dflt

/-- `doc[k]` as a JsonVariant (absent member reads as null). -/
def jget (d : Jdoc) (k : String) : JVal := (jlookup d k).getD .jnull

/-- Field lookup in a reply document. -/
def replyField : Reply → String → Option String
  | [], _ => none
  | (k2, v) :: rest, k => if k2 == k then some v else replyField rest k

/-- `isspace` of the C locale: 9..13 and 32. -/
def isSpaceC (c : Char) : Bool := c == ' ' || (9 ≤ c.toNat && c.toNat ≤ 13)

/-- Digit-accumulation loop of `atoi`: consume leading digits. -/
def atoiDigits : List Char → Nat → Nat
  | [], acc => acc
  | c :: rest, acc =>
    if c.isDigit then atoiDigits rest (acc * 10 + (c.toNat - 48)) else acc

/-- Core of C `atoi`: skip whitespace, optional sign, leading digits. -/
def atoiCore : List Char → Int
  | [] => 0
  | c :: rest =>
    if isSpaceC c then atoiCore rest
    else if c == '-' then -(atoiDigits rest 0 : Int)
    else if c == '+' then (atoiDigits rest 0 : Int)
    else (atoiDigits (c :: rest) 0 : Int)

/-- C `atoi` (also Arduino `String::toInt`). -/
def atoi (s : String) : Int := atoiCore s.data

/-- The Arduino `constrain` macro. -/
def constrain (x lo hi : Int) : Int := if x < lo then lo else if hi < x then hi else x

/-- `v.as<int>` of ArduinoJson on the variants the handlers feed it. -/
def jvalAsInt : JVal → Int
  | .jint n => n
  | .jbool b => if b then 1 else 0
  | .jstr s => atoi s
  | _ => 0

/-- `v.as<const char*>` with the null check of ws_cmd_config_wr:
a missing or non-string value becomes the empty string. -/
def jvalAsStrOrEmpty : JVal → String
  | .jstr s => s
  | _ => ""

/-- `ws_getBool` (websocket.cpp lines 124-133). -/
def ws_getBool (v : JVal) (dflt : Bool) : Bool :=
  match v with
  | .jbool b => b
  | .jint n => n ≠ 0
  | .jstr s => atoi s ≠ 0
  | _ => dflt

/-- `ws_getU8` (websocket.cpp lines 145-157). -/
def ws_getU8 (v : JVal) (dflt : Nat) : Nat :=
  match v with
  | .jnull => dflt
  | _ => (constrain (jvalAsInt v) 0 255).toNat

/-- `ws_getU16` (websocket.cpp lines 169-181). -/
def ws_getU16 (v : JVal) (dflt : Nat) : Nat :=
  match v with
  | .jnull => dflt
  | _ => (constrain (jvalAsInt v) 0 65535).toNat

/-- Constants from all_define.h and display.h. -/
def CONNECTION_HOSTNAME : String := "RoBoRa"

def VERSIONE_APP : String := "1.0"

def WS_REQUEST_RESET : Nat := 500

def DISPLAY_MAX_LINES : Nat := 16

/-- Calls a handler makes into the excluded collaborator modules. -/
inductive HAct where
  | motorsApplyAct (throttle steer : Int)
  | scheduleRebootAct (ms : Nat)
  | configPutAct (k v : String)
  | motorsReloadAct
  | telemetryReloadAct
  | fnSetAct (idx : Int) (isOn : Bool)
  | configSaveAllDefaultsAct
  | bufStore (idx : Nat) (s : String)
  | displayLoadAct (scroll n fontsize : Nat) (invert truncate : Bool) (delayMs : Nat) (loop : Bool)
deriving Repr, DecidableEq

/-- The collaborator functions a handler consults (configuration module,
system info): passed explicitly so each handler stays a pure function. -/
structure WsCollab where
  isParamKey : String → Bool
  configGet : String → String
  configSections : Reply
  infoVals : Reply

/-- `ws_cmd_hello` (websocket.cpp lines 324-331). -/
def ws_cmd_hello (_doc : Jdoc) : List HAct × List Reply :=
  ([], [[("CMD", "hello_webui"), ("server", CONNECTION_HOSTNAME), ("ver", VERSIONE_APP)]])

/-- `ws_cmd_reboot` (websocket.cpp lines 341-345): a literal
`{"CMD":"ack","msg":"rebooting"}` text, then a deferred restart. -/
def ws_cmd_reboot (_doc : Jdoc) : List HAct × List Reply :=
  ([.scheduleRebootAct WS_REQUEST_RESET], [[("CMD", "ack"), ("msg", "rebooting")]])

/-- `ws_cmd_config_req` (websocket.cpp lines 355-363): sends the string
built by `configGetListParameter` (config.cpp lines 756-767), whose first
member is `"CMD":"config_req"`; the section contents come from the
configuration collaborator. -/
def ws_cmd_config_req (c : WsCollab) (_doc : Jdoc) : List HAct × List Reply :=
  ([], [("CMD", "config_req") :: c.configSections])

/-- `ws_cmd_config_rd` (websocket.cpp lines 374-389): one reply per
parameter key present in the document. -/
def ws_cmd_config_rd (c : WsCollab) (doc : Jdoc) : List HAct × List Reply :=
  ([], doc.filterMap (fun kv =>
    if c.isParamKey kv.1 then
      some [("CMD", "config_rd"), (kv.1, c.configGet kv.1)]
    else none))

/-- `ws_cmd_config_wr` (websocket.cpp lines 400-418): writes each parameter
key, one reply per key, then reloads motors and telemetry. -/
def ws_cmd_config_wr (c : WsCollab) (doc : Jdoc) : List HAct × List Reply :=
  let valid := doc.filter (fun kv => c.isParamKey kv.1)
  (valid.map (fun kv => HAct.configPutAct kv.1 (jvalAsStrOrEmpty kv.2))
     ++ [.motorsReloadAct, .telemetryReloadAct],
   valid.map (fun kv => [("CMD", "config_wr"), (kv.1, jvalAsStrOrEmpty kv.2)]))

/-- `ws_cmd_sendInfo` (websocket.cpp lines 429-446): `CMD` is `"info"`,
the info fields come from the excluded system collaborators. -/
def ws_cmd_sendInfo (c : WsCollab) (_doc : Jdoc) : List HAct × List Reply :=
  ([], [("CMD", "info") :: c.infoVals])

/-- `ws_cmd_move` (websocket.cpp lines 457-468): parse `x` and `y` as
numeric strings (default "0"), constrain both to [-127, 127], call
`motorsApply(y, x)` — throttle is the clamped `y`, steer the clamped `x` —
and reply OK. -/
def ws_cmd_move (doc : Jdoc) : List HAct × List Reply :=
  let x := constrain (atoi (jstrOr doc "x" "0")) (-127) 127
  let y := constrain (atoi (jstrOr doc "y" "0")) (-127) 127
  ([.motorsApplyAct y x], [[("CMD", "move"), ("status", "OK")]])

/-- `ws_cmd_function` (websocket.cpp lines 479-496): every field whose key
starts with "FN" yields an `fnSet` call; the value must be the string "on"
(case-insensitive) to switch on. -/
def ws_cmd_function (doc : Jdoc) : List HAct × List Reply :=
  (doc.filterMap (fun kv =>
     if kv.1.startsWith "FN" then
       let idx := atoi (kv.1.drop 2)
       let isOn := match kv.2 with
         | .jstr s => s.toLower == "on"
         | _ => false
       some (HAct.fnSetAct idx isOn)
     else none),
   [[("CMD", "function"), ("status", "OK")]])

/-- `ws_cmd_reset_memory` (websocket.cpp lines 506-513). -/
def ws_cmd_reset_memory (_doc : Jdoc) : List HAct × List Reply :=
  ([.configSaveAllDefaultsAct], [[("CMD", "reset_memory"), ("status", "OK")]])

/-- `ws_cmd_sendString` (websocket.cpp lines 523-548): extract the display
options, then copy every string element of `strings` into the static line
buffer `buf[DISPLAY_MAX_LINES]` at index `Stringrecived++` — the source has
no bound check on that index — and forward buffer and count to
`displayLoadAutoScroll`. Each store is recorded as `bufStore idx s`. -/
def ws_cmd_sendString (doc : Jdoc) : List HAct × List Reply :=
  let fontsize := ws_getU8 (jget doc "size") 1
  let invert := ws_getBool (jget doc "invert") false
  let truncate := ws_getBool (jget doc "truncate") false
  let scroll := ws_getU8 (jget doc "scroll") 0
  let delayMs := ws_getU16 (jget doc "delay") 1500
  let loop := ws_getBool (jget doc "loop") false
  let strs := match jget doc "strings" with
    | .jarr xs => xs.filterMap (fun v => match v with | .jstr s => some s | _ => none)
    | _ => []
  let stores := ((List.range strs.length).zip strs).map (fun p => HAct.bufStore p.1 p.2)
  (stores ++ [.displayLoadAct scroll strs.length fontsize invert truncate delayMs loop],
   [[("CMD", "displaymsg"), ("status", "OK")]])

/-- Tags for the ten handlers registered in the `ws_commands` map. -/
inductive WsCmdTag where
  | hello | reboot | config_req | config_rd | config_wr
  | info_req | move | function | reset_memory | displaymsg
deriving Repr, DecidableEq

/-- The `ws_commands` map (websocket.cpp lines 216-226). -/
def ws_commands : List (String × WsCmdTag) :=
  [("hello_robora", .hello), ("reboot", .reboot), ("config_req", .config_req),
   ("config_rd", .config_rd), ("config_wr", .config_wr), ("info_req", .info_req),
   ("move", .move), ("function", .function), ("reset_memory", .reset_memory),
   ("displaymsg", .displaymsg)]

/-- Invoke the handler a tag stands for. -/
def runHandler (c : WsCollab) (tag : WsCmdTag) (doc : Jdoc) : List HAct × List Reply :=
  match tag with
  | .hello => ws_cmd_hello doc
  | .reboot => ws_cmd_reboot doc
  | .config_req => ws_cmd_config_req c doc
  | .config_rd => ws_cmd_config_rd c doc
  | .config_wr => ws_cmd_config_wr c doc
  | .info_req => ws_cmd_sendInfo c doc
  | .move => ws_cmd_move doc
  | .function => ws_cmd_function doc
  | .reset_memory => ws_cmd_reset_memory doc
  | .displaymsg => ws_cmd_sendString doc

/-- `handleWsMessage` (websocket.cpp lines 277-301): on a parse error an
"invalid json payload" reply citing the parser text; otherwise extract
`CMD` (absent means ""), look it up, run the handler or reply
"unknown command". -/
def handleWsMessage (c : WsCollab) (parsed : Except String Jdoc) : List HAct × List Reply :=
  match parsed with
  | .error e => ([], [[("CMD", "error"), ("msg", "invalid json payload" ++ e)]])
  | .ok doc =>
    let cmd := jstrOr doc "CMD" ""
    match ws_commands.find? (fun p => p.1 == cmd) with
    | some p => runHandler c p.2 doc
    | none => ([], [[("CMD", "error"), ("msg", "unknown command")]])

/-- A trivial collaborator: no parameter keys, empty sections. -/
def collabEx : WsCollab :=
  { isParamKey := fun _ => false, configGet := fun _ => "",
    configSections := [], infoVals := [] }

/-! ## Outbound queue and periodic tick (src/src/websocket.cpp, motors.cpp) -/

/-- The joystick globals of motors.cpp. -/
structure MotorsState where
  joyX : Int
  joyY : Int
deriving Repr, DecidableEq

/-- `motorsApply` (motors.cpp lines 125-130): store throttle into `joyY`
and steer into `joyX`, then drive. -/
def motorsApply (throttle steer : Int) : MotorsState :=
  { joyX := steer, joyY := throttle }

/-- Modelled from the spec: `FifoStringDyn::push` of the external library
`<FifoStringDyn.h>` appends at the tail and fails only on underlying
allocation failure; the allocation outcome is an explicit oracle. -/
def fifoPush (q : List String) (msg : String) (allocOk : Bool) : Bool × List String :=
  if allocOk then (true, q ++ [msg]) else (false, q)

/-- The websocket-layer mutable state the queue and tick functions touch:
the set of connected client ids (after `cleanupClients`), the `Fsd` queue,
the joystick globals, and the broadcasts performed so far. -/
structure WsSysState where
  clients : List Nat
  fifo : List String
  motors : MotorsState
  sent : List String
deriving Repr, DecidableEq

/-- `websocketAreClients` (websocket.cpp lines 753-762): true iff some
client is connected. -/
def websocketAreClients (clients : List Nat) : Bool := !clients.isEmpty

/-- `websocketAsyncMsg` (websocket.cpp lines 78-85): `RET = false`; only
when clients are connected is `Fsd.push` attempted at all. -/
def websocketAsyncMsg (s : WsSysState) (msg : String) (allocOk : Bool) :
    Bool × WsSysState :=
  if websocketAreClients s.clients then
    let r := fifoPush s.fifo msg allocOk
    (r.1, { s with fifo := r.2 })
  else (false, s)

/-- `websocketSendAsyncMsg` (websocket.cpp lines 95-109): with clients and
a non-empty queue, pop the head and broadcast it; returns the queue size. -/
def websocketSendAsyncMsg (s : WsSysState) (areClient : Bool) : WsSysState × Nat :=
  if areClient then
    match s.fifo with
    | [] => (s, 0)
    | m :: rest => ({ s with fifo := rest, sent := s.sent ++ [m] }, rest.length)
  else (s, s.fifo.length)

/-- `websocketTick` (websocket.cpp lines 740-747): drain one queued
message, and with no client connected command the motors to (0,0). -/
def websocketTick (s : WsSysState) : WsSysState :=
  let areClient := websocketAreClients s.clients
  let s1 := (websocketSendAsyncMsg s areClient).1
  if !areClient then { s1 with motors := motorsApply 0 0 } else s1

/-- The per-handler value of the `CMD` field of every reply the handler
sends, read off the reply-document constructions in websocket.cpp. -/
def replyCmdOf : WsCmdTag → String
  | .hello => "hello_webui"
  | .reboot => "ack"
  | .config_req => "config_req"
  | .config_rd => "config_rd"
  | .config_wr => "config_wr"
  | .info_req => "info"
  | .move => "move"
  | .function => "function"
  | .reset_memory => "reset_memory"
  | .displaymsg => "displaymsg"

/-- A displaymsg document whose `strings` array holds 17 string elements,
one more than the line buffer has room for. -/
def sendString17doc : Jdoc :=
  [("CMD", .jstr "displaymsg"), ("strings", .jarr (List.replicate 17 (.jstr "x")))]

/-!
# Theorems
-/

/-- C2: For the document `{"CMD":"move","x":"200","y":"-300"}` the
dispatcher invokes the move handler, which clamps each coordinate to
[-127, 127]; the motors collaborator receives the clamped pair
(x, y) = (127, -127) — the call is `motorsApply(y, x)`, so the stored
steer `joyX` is 127 and the stored throttle `joyY` is -127 — and the reply
is `{"CMD":"move","status":"OK"}`. -/
theorem c2_move_clamped_scenario :
    handleWsMessage collabEx
        (.ok [("CMD", .jstr "move"), ("x", .jstr "200"), ("y", .jstr "-300")])
      = ([.motorsApplyAct (-127) 127], [[("CMD", "move"), ("status", "OK")]])
    ∧ motorsApply (-127) 127 = { joyX := 127, joyY := -127 } :=
  ⟨rfl, rfl⟩

/-- C5 counterexample: with no client connected and no allocation failure,
`websocketAsyncMsg` returns false and the message is not accepted into the
queue — refuting that enqueue fails only on allocation failure and that it
still succeeds when no clients are connected. -/
theorem c5_counterexample :
    websocketAsyncMsg ⟨[], [], ⟨0, 0⟩, []⟩ "m" true = (false, ⟨[], [], ⟨0, 0⟩, []⟩) :=
  rfl

/-- C5 amended: `websocketAsyncMsg` succeeds exactly when at least one
client is connected and the underlying push succeeds; with no clients the
message is not enqueued and false is returned — the client-presence check
is built into the producer-facing enqueue itself. -/
theorem c5_enqueue_requires_clients (s : WsSysState) (msg : String) (allocOk : Bool) :
    websocketAsyncMsg s msg allocOk =
      (websocketAreClients s.clients && allocOk,
       { s with fifo := if websocketAreClients s.clients && allocOk
                        then s.fifo ++ [msg] else s.fifo }) := by
  unfold websocketAsyncMsg fifoPush
  cases h : websocketAreClients s.clients <;> cases allocOk <;> simp

/-- C7 counterexample: a `hello_robora` request is answered with a reply
whose `CMD` field is `"hello_webui"`, not the original command name. -/
theorem c7_counterexample :
    replyField ((handleWsMessage collabEx (.ok [("CMD", .jstr "hello_robora")])).2.headD []) "CMD"
      = some "hello_webui"
    ∧ ("hello_webui" : String) ≠ "hello_robora" :=
  ⟨rfl, by decide⟩

/-- C7 amended: every reply a handler sends carries a fixed `CMD` value
given by `replyCmdOf`: the six handlers `config_req`, `config_rd`,
`config_wr`, `move`, `function`, `reset_memory`, `displaymsg` echo the
original command name, but `hello_robora` replies with `"hello_webui"`,
`reboot` with `"ack"`, and `info_req` with `"info"`. -/
theorem c7_reply_cmd_table (c : WsCollab) (tag : WsCmdTag) (doc : Jdoc)
    (r : Reply) (hr : r ∈ (runHandler c tag doc).2) :
    replyField r "CMD" = some (replyCmdOf tag) := by
  cases tag
  case hello =>
    simp [runHandler, ws_cmd_hello] at hr; subst hr; rfl
  case reboot =>
    simp [runHandler, ws_cmd_reboot] at hr; subst hr; rfl
  case config_req =>
    simp [runHandler, ws_cmd_config_req] at hr; subst hr; rfl
  case config_rd =>
    simp only [runHandler, ws_cmd_config_rd] at hr
    obtain ⟨kv, -, hf⟩ := List.mem_filterMap.mp hr
    by_cases hp : c.isParamKey kv.1
    · rw [if_pos hp] at hf
      injection hf with hf
      subst hf; rfl
    · rw [if_neg hp] at hf
      exact absurd hf (by simp)
  case config_wr =>
    simp only [runHandler, ws_cmd_config_wr] at hr
    obtain ⟨kv, -, hf⟩ := List.mem_map.mp hr
    subst hf; rfl
  case info_req =>
    simp [runHandler, ws_cmd_sendInfo] at hr; subst hr; rfl
  case move =>
    simp [runHandler, ws_cmd_move] at hr; subst hr; rfl
  case function =>
    simp [runHandler, ws_cmd_function] at hr; subst hr; rfl
  case reset_memory =>
    simp [runHandler, ws_cmd_reset_memory] at hr; subst hr; rfl
  case displaymsg =>
    simp [runHandler, ws_cmd_sendString] at hr; subst hr; rfl

/-- C7 witness: the amended table applied to the hello handler on the
empty document. -/
theorem c7_reply_cmd_table_witness :
    replyField [("CMD", "hello_webui"), ("server", CONNECTION_HOSTNAME),
                ("ver", VERSIONE_APP)] "CMD" = some (replyCmdOf .hello) :=
  c7_reply_cmd_table collabEx .hello [] _ (by simp [runHandler, ws_cmd_hello])

/-- C8: evaluation at the failing input. On a displaymsg document whose
`strings` array holds 17 string elements, `ws_cmd_sendString` performs a
store at index 16 = DISPLAY_MAX_LINES — one past the end of the
16-element static line buffer — and forwards a count of 17 lines to the
display collaborator, exceeding DISPLAY_MAX_LINES. -/
theorem c8_sendString_overflow :
    HAct.bufStore DISPLAY_MAX_LINES "x" ∈ (ws_cmd_sendString sendString17doc).1
    ∧ HAct.displayLoadAct 0 17 1 false false 1500 false ∈ (ws_cmd_sendString sendString17doc).1
    ∧ DISPLAY_MAX_LINES < 17 := by
  refine ⟨by decide, by decide, by decide⟩

/-- C9: dispatching a well-formed document whose `CMD` value is not a key
of the command table produces exactly one
`{"CMD":"error","msg":"unknown command"}` reply to the client and performs
no handler action at all. -/
theorem c9_unknown_command (c : WsCollab) (doc : Jdoc)
    (h : jstrOr doc "CMD" "" ∉ ws_commands.map Prod.fst) :
    handleWsMessage c (.ok doc)
      = ([], [[("CMD", "error"), ("msg", "unknown command")]]) := by
  have hf : ws_commands.find? (fun p => p.1 == jstrOr doc "CMD" "") = none := by
    rw [List.find?_eq_none]
    intro p hp hbeq
    exact h (List.mem_map.mpr ⟨p, hp, by simpa using hbeq⟩)
  simp [handleWsMessage, hf]

/-- C9 witness: the `{"CMD":"bogus"}` scenario. -/
theorem c9_unknown_command_witness :
    handleWsMessage collabEx (.ok [("CMD", .jstr "bogus")])
      = ([], [[("CMD", "error"), ("msg", "unknown command")]]) :=
  c9_unknown_command collabEx [("CMD", .jstr "bogus")] (by decide)

/-- C10: after a `websocketTick` executed while no client is connected,
the motors collaborator has been commanded to (0, 0): the stored joystick
state is zero in both axes. -/
theorem c10_tick_no_clients_stops_motors (s : WsSysState) (h : s.clients = []) :
    (websocketTick s).motors = { joyX := 0, joyY := 0 } := by
  simp [websocketTick, websocketAreClients, h, websocketSendAsyncMsg, motorsApply]

/-- C10 witness: a tick on a clientless state with queued messages and
running motors. -/
theorem c10_tick_no_clients_stops_motors_witness :
    (websocketTick ⟨[], ["q1", "q2"], ⟨35, -90⟩, []⟩).motors = { joyX := 0, joyY := 0 } :=
  c10_tick_no_clients_stops_motors ⟨[], ["q1", "q2"], ⟨35, -90⟩, []⟩ rfl


/-! ### Update-session helper lemmas -/


@[simp] theorem otaProgressStep_written (s : OtaState) (now d t : Nat) :
    (otaProgressStep s now d t).1.written = s.written := by
  unfold otaProgressStep; split <;> rfl

@[simp] theorem otaProgressStep_maxSize (s : OtaState) (now d t : Nat) :
    (otaProgressStep s now d t).1.maxSize = s.maxSize := by
  unfold otaProgressStep; split <;> rfl

theorem octetPhaseA_index_ne (s : OtaState) (c : OctetChunk) (o : OtaOracle)
    (h : c.index ≠ 0) : octetPhaseA s c o = .inr (s, []) := by
  unfold octetPhaseA; rw [if_neg h]

theorem octetPhaseA_inl_no_write {s : OtaState} {c : OctetChunk} {o : OtaOracle}
    {r : OtaState × List OtaEvent} (h : octetPhaseA s c o = .inl r) (n : Nat) :
    OtaEvent.writeFlash n ∉ r.2 := by
  unfold octetPhaseA at h
  split at h
  · split at h
    · cases h; simp
    · split at h
      · cases h; simp
      · split at h
        · cases h
        · cases h; simp
  · cases h

theorem octetPhaseA_inr_no_write {s : OtaState} {c : OctetChunk} {o : OtaOracle}
    {r : OtaState × List OtaEvent} (h : octetPhaseA s c o = .inr r) (n : Nat) :
    OtaEvent.writeFlash n ∉ r.2 := by
  unfold octetPhaseA at h
  split at h
  · split at h
    · cases h
    · split at h
      · cases h
      · split at h
        · cases h; simp
        · cases h
  · cases h; simp

theorem octetPhaseB_inl {s : OtaState} {c : OctetChunk} {o : OtaOracle}
    {r : OtaState × List OtaEvent} (h : octetPhaseB s c o = .inl r) :
    r = (s, [.reject "Stream exceeds partition", .abortUpd, .httpResp 400 "Too big"]) := by
  unfold octetPhaseB at h
  split at h
  · split at h
    · cases h; rfl
    · cases h
  · cases h

theorem octetPhaseB_inr {s : OtaState} {c : OctetChunk} {o : OtaOracle}
    {r : OtaState × List OtaEvent} (hw : o.writeRet ≤ c.len)
    (h : octetPhaseB s c o = .inr r) :
    r = (s, []) ∨ r.1.written ≤ r.1.maxSize := by
  unfold octetPhaseB at h
  split at h
  · split at h
    · cases h
    · rename_i hcond hover
      cases h
      right
      rw [otaProgressStep_written, otaProgressStep_maxSize]
      simp only [not_lt] at hover
      show s.written + o.writeRet ≤ s.maxSize
      omega
  · cases h; left; rfl

@[simp] theorem octetPhaseC_written (s : OtaState) (c : OctetChunk) (o : OtaOracle) :
    (octetPhaseC s c o).1.written = s.written := by
  unfold octetPhaseC
  split
  · split <;> rfl
  · rfl

@[simp] theorem octetPhaseC_maxSize (s : OtaState) (c : OctetChunk) (o : OtaOracle) :
    (octetPhaseC s c o).1.maxSize = s.maxSize := by
  unfold octetPhaseC
  split
  · split <;> rfl
  · rfl

theorem octetPhaseC_no_write (s : OtaState) (c : OctetChunk) (o : OtaOracle) (n : Nat) :
    OtaEvent.writeFlash n ∉ (octetPhaseC s c o).2 := by
  unfold octetPhaseC
  split
  · split <;> simp
  · simp

theorem octetStep_cases (s : OtaState) (c : OctetChunk) (o : OtaOracle) :
    (∃ r, octetPhaseA s c o = .inl r ∧ mountUpdateOctetStep s c o = r)
  ∨ (∃ s1 e1 r2, octetPhaseA s c o = .inr (s1, e1) ∧ octetPhaseB s1 c o = .inl r2
       ∧ mountUpdateOctetStep s c o = (r2.1, e1 ++ r2.2))
  ∨ (∃ s1 e1 s2 e2, octetPhaseA s c o = .inr (s1, e1) ∧ octetPhaseB s1 c o = .inr (s2, e2)
       ∧ mountUpdateOctetStep s c o
           = ((octetPhaseC s2 c o).1, e1 ++ e2 ++ (octetPhaseC s2 c o).2)) := by
  unfold mountUpdateOctetStep
  cases hA : octetPhaseA s c o with
  | inl r => exact .inl ⟨r, rfl, rfl⟩
  | inr r =>
    obtain ⟨s1, e1⟩ := r
    dsimp only
    cases hB : octetPhaseB s1 c o with
    | inl r2 => exact .inr (.inl ⟨s1, e1, r2, rfl, hB, rfl⟩)
    | inr r2 =>
      obtain ⟨s2, e2⟩ := r2
      exact .inr (.inr ⟨s1, e1, s2, e2, rfl, hB, rfl⟩)

theorem octetStep_guard (s : OtaState) (c : OctetChunk) (o : OtaOracle)
    (hi : c.index ≠ 0) (hb : s.began = true) (hl : 0 < c.len)
    (hover : s.maxSize < s.written + c.len) :
    mountUpdateOctetStep s c o
      = (s, [.reject "Stream exceeds partition", .abortUpd, .httpResp 400 "Too big"]) := by
  simp only [mountUpdateOctetStep, octetPhaseA, octetPhaseB, hi, hb, hl, hover,
    if_true, if_false, ite_true, ite_false]
  simp

theorem octetStep_write_bound {s : OtaState} {c : OctetChunk} {o : OtaOracle}
    (hw : o.writeRet ≤ c.len)
    (hmem : ∃ n, OtaEvent.writeFlash n ∈ (mountUpdateOctetStep s c o).2) :
    (mountUpdateOctetStep s c o).1.written ≤ (mountUpdateOctetStep s c o).1.maxSize := by
  obtain ⟨n, hn⟩ := hmem
  rcases octetStep_cases s c o with ⟨r, hA, hstep⟩ |
    ⟨s1, e1, r2, hA, hB, hstep⟩ | ⟨s1, e1, s2, e2, hA, hB, hstep⟩
  · rw [hstep] at hn
    exact absurd hn (octetPhaseA_inl_no_write hA n)
  · rw [hstep] at hn
    rcases List.mem_append.mp hn with h1 | h2
    · exact absurd h1 (octetPhaseA_inr_no_write hA n)
    · rw [octetPhaseB_inl hB] at h2
      simp at h2
  · rw [hstep] at hn ⊢
    simp only [octetPhaseC_written, octetPhaseC_maxSize]
    rcases octetPhaseB_inr hw hB with h0 | hbound
    · injection h0 with h0a h0b
      subst h0a; subst h0b
      rcases List.mem_append.mp hn with h1 | h2
      · rcases List.mem_append.mp h1 with h1a | h1b
        · exact absurd h1a (octetPhaseA_inr_no_write hA n)
        · simp at h1b
      · exact absurd h2 (octetPhaseC_no_write _ c o n)
    · exact hbound

theorem octetStep_preserve {s : OtaState} {c : OctetChunk} {o : OtaOracle}
    (hi : c.index ≠ 0) (hw : o.writeRet ≤ c.len)
    (hpre : s.written ≤ s.maxSize) :
    (mountUpdateOctetStep s c o).1.written ≤ (mountUpdateOctetStep s c o).1.maxSize := by
  rcases octetStep_cases s c o with ⟨r, hA, hstep⟩ |
    ⟨s1, e1, r2, hA, hB, hstep⟩ | ⟨s1, e1, s2, e2, hA, hB, hstep⟩
  · rw [octetPhaseA_index_ne s c o hi] at hA
    exact absurd hA (by simp)
  · rw [octetPhaseA_index_ne s c o hi] at hA
    injection hA with hA2
    injection hA2 with hA3 hA4
    subst hA3
    rw [hstep, octetPhaseB_inl hB]
    exact hpre
  · rw [octetPhaseA_index_ne s c o hi] at hA
    injection hA with hA2
    injection hA2 with hA3 hA4
    subst hA3
    rw [hstep]
    simp only [octetPhaseC_written, octetPhaseC_maxSize]
    rcases octetPhaseB_inr hw hB with h0 | hbound
    · injection h0 with h0a h0b
      subst h0a
      exact hpre
    · exact hbound

theorem octetRun_preserve (s : OtaState) (cs : List (OctetChunk × OtaOracle))
    (h : ∀ p ∈ cs, (p.1 : OctetChunk).index ≠ 0 ∧ p.2.writeRet ≤ p.1.len)
    (hpre : s.written ≤ s.maxSize) :
    (mountUpdateOctetRun s cs).1.written ≤ (mountUpdateOctetRun s cs).1.maxSize := by
  induction cs generalizing s with
  | nil => exact hpre
  | cons p rest ih =>
    obtain ⟨hi, hw⟩ := h p (by simp)
    simp only [mountUpdateOctetRun]
    exact ih _ (fun q hq => h q (by simp [hq])) (octetStep_preserve hi hw hpre)

theorem octetStep_inactive (s : OtaState) (c : OctetChunk) (o : OtaOracle)
    (hb : s.began = false) (hi : c.index ≠ 0) :
    mountUpdateOctetStep s c o = (s, []) := by
  simp only [mountUpdateOctetStep, octetPhaseA, octetPhaseB, octetPhaseC, hi, hb,
    if_true, if_false, ite_true, ite_false]
  simp [hb]

theorem octetRun_inactive (s : OtaState) (cs : List (OctetChunk × OtaOracle))
    (hb : s.began = false) (h : ∀ p ∈ cs, (p.1 : OctetChunk).index ≠ 0) :
    mountUpdateOctetRun s cs = (s, []) := by
  induction cs with
  | nil => rfl
  | cons p rest ih =>
    simp only [mountUpdateOctetRun]
    rw [octetStep_inactive s p.1 p.2 hb (h p (by simp))]
    rw [ih (fun q hq => h q (by simp [hq]))]
    rfl


theorem multipartPhaseA_inl_no_write {s : OtaState} {c : MultipartChunk} {o : OtaOracle}
    {r : OtaState × List OtaEvent} (h : multipartPhaseA s c o = .inl r) (n : Nat) :
    OtaEvent.writeFlash n ∉ r.2 := by
  unfold multipartPhaseA at h
  split at h
  · split at h
    · cases h; simp
    · split at h
      · cases h
      · cases h; simp
  · cases h

theorem multipartPhaseA_inr_no_write {s : OtaState} {c : MultipartChunk} {o : OtaOracle}
    {r : OtaState × List OtaEvent} (h : multipartPhaseA s c o = .inr r) (n : Nat) :
    OtaEvent.writeFlash n ∉ r.2 := by
  unfold multipartPhaseA at h
  split at h
  · split at h
    · cases h
    · split at h
      · cases h; simp
      · cases h
  · cases h; simp

theorem multipartPhaseB_inl {s : OtaState} {c : MultipartChunk} {o : OtaOracle}
    {r : OtaState × List OtaEvent} (h : multipartPhaseB s c o = .inl r) :
    r = (s, [.reject "Stream exceeds partition size", .abortUpd]) := by
  unfold multipartPhaseB at h
  split at h
  · split at h
    · cases h; rfl
    · cases h
  · cases h

theorem multipartPhaseB_inr {s : OtaState} {c : MultipartChunk} {o : OtaOracle}
    {r : OtaState × List OtaEvent} (hw : o.writeRet ≤ c.len)
    (h : multipartPhaseB s c o = .inr r) :
    r = (s, []) ∨ r.1.written ≤ r.1.maxSize := by
  unfold multipartPhaseB at h
  split at h
  · split at h
    · cases h
    · rename_i hcond hover
      cases h
      right
      rw [otaProgressStep_written, otaProgressStep_maxSize]
      simp only [not_lt] at hover
      show s.written + o.writeRet ≤ s.maxSize
      omega
  · cases h; left; rfl

@[simp] theorem multipartPhaseC_written (s : OtaState) (c : MultipartChunk) (o : OtaOracle) :
    (multipartPhaseC s c o).1.written = s.written := by
  unfold multipartPhaseC; split <;> rfl

@[simp] theorem multipartPhaseC_maxSize (s : OtaState) (c : MultipartChunk) (o : OtaOracle) :
    (multipartPhaseC s c o).1.maxSize = s.maxSize := by
  unfold multipartPhaseC; split <;> rfl

theorem multipartPhaseC_no_write (s : OtaState) (c : MultipartChunk) (o : OtaOracle) (n : Nat) :
    OtaEvent.writeFlash n ∉ (multipartPhaseC s c o).2 := by
  unfold multipartPhaseC; split <;> simp

theorem multipartStep_cases (s : OtaState) (c : MultipartChunk) (o : OtaOracle) :
    (∃ r, multipartPhaseA s c o = .inl r ∧ mountUpdateMultipartStep s c o = r)
  ∨ (∃ s1 e1 r2, multipartPhaseA s c o = .inr (s1, e1) ∧ multipartPhaseB s1 c o = .inl r2
       ∧ mountUpdateMultipartStep s c o = (r2.1, e1 ++ r2.2))
  ∨ (∃ s1 e1 s2 e2, multipartPhaseA s c o = .inr (s1, e1) ∧ multipartPhaseB s1 c o = .inr (s2, e2)
       ∧ mountUpdateMultipartStep s c o
           = ((multipartPhaseC s2 c o).1, e1 ++ e2 ++ (multipartPhaseC s2 c o).2)) := by
  unfold mountUpdateMultipartStep
  cases hA : multipartPhaseA s c o with
  | inl r => exact .inl ⟨r, rfl, rfl⟩
  | inr r =>
    obtain ⟨s1, e1⟩ := r
    dsimp only
    cases hB : multipartPhaseB s1 c o with
    | inl r2 => exact .inr (.inl ⟨s1, e1, r2, rfl, hB, rfl⟩)
    | inr r2 =>
      obtain ⟨s2, e2⟩ := r2
      exact .inr (.inr ⟨s1, e1, s2, e2, rfl, hB, rfl⟩)

theorem multipartPhaseA_index_ne (s : OtaState) (c : MultipartChunk) (o : OtaOracle)
    (h : c.index ≠ 0) : multipartPhaseA s c o = .inr (s, []) := by
  unfold multipartPhaseA; rw [if_neg h]

theorem multipartStep_guard (s : OtaState) (c : MultipartChunk) (o : OtaOracle)
    (hi : c.index ≠ 0) (hb : s.began = true) (hl : 0 < c.len)
    (hover : s.maxSize < s.written + c.len) :
    mountUpdateMultipartStep s c o
      = (s, [.reject "Stream exceeds partition size", .abortUpd]) := by
  simp only [mountUpdateMultipartStep, multipartPhaseA, multipartPhaseB, hi, hb, hl, hover,
    if_true, if_false, ite_true, ite_false]
  simp

theorem multipartStep_write_bound {s : OtaState} {c : MultipartChunk} {o : OtaOracle}
    (hw : o.writeRet ≤ c.len)
    (hmem : ∃ n, OtaEvent.writeFlash n ∈ (mountUpdateMultipartStep s c o).2) :
    (mountUpdateMultipartStep s c o).1.written ≤ (mountUpdateMultipartStep s c o).1.maxSize := by
  obtain ⟨n, hn⟩ := hmem
  rcases multipartStep_cases s c o with ⟨r, hA, hstep⟩ |
    ⟨s1, e1, r2, hA, hB, hstep⟩ | ⟨s1, e1, s2, e2, hA, hB, hstep⟩
  · rw [hstep] at hn
    exact absurd hn (multipartPhaseA_inl_no_write hA n)
  · rw [hstep] at hn
    rcases List.mem_append.mp hn with h1 | h2
    · exact absurd h1 (multipartPhaseA_inr_no_write hA n)
    · rw [multipartPhaseB_inl hB] at h2
      simp at h2
  · rw [hstep] at hn ⊢
    simp only [multipartPhaseC_written, multipartPhaseC_maxSize]
    rcases multipartPhaseB_inr hw hB with h0 | hbound
    · injection h0 with h0a h0b
      subst h0a; subst h0b
      rcases List.mem_append.mp hn with h1 | h2
      · rcases List.mem_append.mp h1 with h1a | h1b
        · exact absurd h1a (multipartPhaseA_inr_no_write hA n)
        · simp at h1b
      · exact absurd h2 (multipartPhaseC_no_write _ c o n)
    · exact hbound

theorem multipartStep_preserve {s : OtaState} {c : MultipartChunk} {o : OtaOracle}
    (hi : c.index ≠ 0) (hw : o.writeRet ≤ c.len)
    (hpre : s.written ≤ s.maxSize) :
    (mountUpdateMultipartStep s c o).1.written ≤ (mountUpdateMultipartStep s c o).1.maxSize := by
  rcases multipartStep_cases s c o with ⟨r, hA, hstep⟩ |
    ⟨s1, e1, r2, hA, hB, hstep⟩ | ⟨s1, e1, s2, e2, hA, hB, hstep⟩
  · rw [multipartPhaseA_index_ne s c o hi] at hA
    exact absurd hA (by simp)
  · rw [multipartPhaseA_index_ne s c o hi] at hA
    injection hA with hA2
    injection hA2 with hA3 hA4
    subst hA3
    rw [hstep, multipartPhaseB_inl hB]
    exact hpre
  · rw [multipartPhaseA_index_ne s c o hi] at hA
    injection hA with hA2
    injection hA2 with hA3 hA4
    subst hA3
    rw [hstep]
    simp only [multipartPhaseC_written, multipartPhaseC_maxSize]
    rcases multipartPhaseB_inr hw hB with h0 | hbound
    · injection h0 with h0a h0b
      subst h0a
      exact hpre
    · exact hbound

theorem multipartRun_preserve (s : OtaState) (cs : List (MultipartChunk × OtaOracle))
    (h : ∀ p ∈ cs, (p.1 : MultipartChunk).index ≠ 0 ∧ p.2.writeRet ≤ p.1.len)
    (hpre : s.written ≤ s.maxSize) :
    (mountUpdateMultipartRun s cs).1.written ≤ (mountUpdateMultipartRun s cs).1.maxSize := by
  induction cs generalizing s with
  | nil => exact hpre
  | cons p rest ih =>
    obtain ⟨hi, hw⟩ := h p (by simp)
    simp only [mountUpdateMultipartRun]
    exact ih _ (fun q hq => h q (by simp [hq])) (multipartStep_preserve hi hw hpre)


/-- C1: the running bytes-written counter never exceeds the selected
partition capacity, for both upload protocols.  Concretely: (a) a chunk
whose length added to the counter would exceed the capacity is rejected
with the "stream exceeds partition" broadcast, the underlying write session
aborted, and neither the counter nor the flash touched — the step returns
the state unchanged and performs no `writeFlash`; (b) whenever a step does
write flash, the post-state counter is within the capacity (given that
`Update.write` reports at most the requested length); (c) along any run of
continuation chunks the invariant `written ≤ maxSize` is preserved. -/
theorem c1_written_never_exceeds_capacity :
    (∀ (s : OtaState) (c : OctetChunk) (o : OtaOracle),
        c.index ≠ 0 → s.began = true → 0 < c.len → s.maxSize < s.written + c.len →
        mountUpdateOctetStep s c o
          = (s, [.reject "Stream exceeds partition", .abortUpd, .httpResp 400 "Too big"]))
  ∧ (∀ (s : OtaState) (c : OctetChunk) (o : OtaOracle), o.writeRet ≤ c.len →
        (∃ n, OtaEvent.writeFlash n ∈ (mountUpdateOctetStep s c o).2) →
        (mountUpdateOctetStep s c o).1.written ≤ (mountUpdateOctetStep s c o).1.maxSize)
  ∧ (∀ (s : OtaState) (cs : List (OctetChunk × OtaOracle)),
        (∀ p ∈ cs, (p.1 : OctetChunk).index ≠ 0 ∧ p.2.writeRet ≤ p.1.len) →
        s.written ≤ s.maxSize →
        (mountUpdateOctetRun s cs).1.written ≤ (mountUpdateOctetRun s cs).1.maxSize)
  ∧ (∀ (s : OtaState) (c : MultipartChunk) (o : OtaOracle),
        c.index ≠ 0 → s.began = true → 0 < c.len → s.maxSize < s.written + c.len →
        mountUpdateMultipartStep s c o
          = (s, [.reject "Stream exceeds partition size", .abortUpd]))
  ∧ (∀ (s : OtaState) (c : MultipartChunk) (o : OtaOracle), o.writeRet ≤ c.len →
        (∃ n, OtaEvent.writeFlash n ∈ (mountUpdateMultipartStep s c o).2) →
        (mountUpdateMultipartStep s c o).1.written ≤ (mountUpdateMultipartStep s c o).1.maxSize)
  ∧ (∀ (s : OtaState) (cs : List (MultipartChunk × OtaOracle)),
        (∀ p ∈ cs, (p.1 : MultipartChunk).index ≠ 0 ∧ p.2.writeRet ≤ p.1.len) →
        s.written ≤ s.maxSize →
        (mountUpdateMultipartRun s cs).1.written ≤ (mountUpdateMultipartRun s cs).1.maxSize) :=
  ⟨octetStep_guard, fun _ _ _ hw => octetStep_write_bound hw, octetRun_preserve,
   multipartStep_guard, fun _ _ _ hw => multipartStep_write_bound hw, multipartRun_preserve⟩

/-- C1 witness: the guard conjunct at a concrete over-capacity chunk — a
session that has written 90 of 100 bytes receives a 20-byte chunk and
rejects it with the state unchanged. -/
theorem c1_written_never_exceeds_capacity_witness :
    mountUpdateOctetStep ⟨true, 100, 90, 0⟩ ⟨5, 20, 1000, false⟩ ⟨some 77, true, 20, true, 0⟩
      = (⟨true, 100, 90, 0⟩,
         [.reject "Stream exceeds partition", .abortUpd, .httpResp 400 "Too big"]) :=
  c1_written_never_exceeds_capacity.1 ⟨true, 100, 90, 0⟩ ⟨5, 20, 1000, false⟩
    ⟨some 77, true, 20, true, 0⟩ (by decide) rfl (by decide) (by decide)

/-- C6 counterexample: on the multipart entry a first chunk whose request
declares a total of 2,000,000 bytes against a partition of capacity
1,500,000 is not rejected: the session starts, `Update.begin` is called,
and the 1024 bytes of the chunk are written to flash. -/
theorem c6_counterexample_multipart :
    mountUpdateMultipartStep otaInit ⟨0, 1024, false, 2000000, false⟩
        ⟨some 1500000, true, 1024, true, 0⟩
      = (⟨true, 1500000, 1024, 0⟩,
         [.start false 2000000 1500000, .beginUpd 1500000, .writeFlash 1024])
    ∧ OtaEvent.writeFlash 1024 ∈
        (mountUpdateMultipartStep otaInit ⟨0, 1024, false, 2000000, false⟩
          ⟨some 1500000, true, 1024, true, 0⟩).2
    ∧ (mountUpdateMultipartStep otaInit ⟨0, 1024, false, 2000000, false⟩
        ⟨some 1500000, true, 1024, true, 0⟩).1.began = true := by
  refine ⟨by decide, by decide, by decide⟩

/-- C6 amended: only the raw-stream (`/ota`) entry compares a known
declared total against the partition capacity on the first chunk: it then
rejects with "Image too big for partition" before `Update.begin` and before
any byte is written, leaves the session inactive, and every following
continuation chunk is ignored without writing.  The multipart (`/update`)
entry performs no such check — see the counterexample — and only rejects
once the running counter would exceed the capacity. -/
theorem c6_octet_declared_total_reject (s : OtaState) (c : OctetChunk) (o : OtaOracle)
    (cap : Nat) (hb : s.began = false) (hi : c.index = 0) (hp : o.partFound = some cap)
    (ht : c.total ≠ 0) (hc : cap < c.total) :
    mountUpdateOctetStep s c o
      = ({ s with written := 0, maxSize := cap },
         [.reject "Image too big for partition", .httpResp 400 "Too big"])
    ∧ (mountUpdateOctetStep s c o).1.began = false
    ∧ (∀ n, OtaEvent.writeFlash n ∉ (mountUpdateOctetStep s c o).2)
    ∧ (∀ rest : List (OctetChunk × OtaOracle),
        (∀ p ∈ rest, (p.1 : OctetChunk).index ≠ 0) →
        mountUpdateOctetRun (mountUpdateOctetStep s c o).1 rest
          = ((mountUpdateOctetStep s c o).1, [])) := by
  have hstep : mountUpdateOctetStep s c o
      = ({ s with written := 0, maxSize := cap },
         [.reject "Image too big for partition", .httpResp 400 "Too big"]) := by
    simp only [mountUpdateOctetStep, octetPhaseA, hi, hp, ht, hc, if_true, if_false,
      ite_true, ite_false]
    simp [ht, hc]
  refine ⟨hstep, by rw [hstep]; exact hb, by rw [hstep]; simp, ?_⟩
  intro rest hrest
  rw [hstep]
  exact octetRun_inactive _ rest hb hrest

/-- C6 witness: the octet entry at declared total 2,000,000 against
capacity 1,500,000, followed by one ignored continuation chunk. -/
theorem c6_octet_declared_total_reject_witness :
    mountUpdateOctetStep otaInit ⟨0, 0, 2000000, false⟩ ⟨some 1500000, true, 0, true, 0⟩
      = (⟨false, 1500000, 0, 0⟩,
         [.reject "Image too big for partition", .httpResp 400 "Too big"])
    ∧ mountUpdateOctetRun
        (mountUpdateOctetStep otaInit ⟨0, 0, 2000000, false⟩ ⟨some 1500000, true, 0, true, 0⟩).1
        [(⟨1024, 1024, 2000000, false⟩, ⟨some 1500000, true, 1024, true, 200⟩)]
      = ((mountUpdateOctetStep otaInit ⟨0, 0, 2000000, false⟩ ⟨some 1500000, true, 0, true, 0⟩).1,
         []) := by
  have h := c6_octet_declared_total_reject otaInit ⟨0, 0, 2000000, false⟩
    ⟨some 1500000, true, 0, true, 0⟩ 1500000 rfl rfl rfl (by decide) (by decide)
  exact ⟨h.1, h.2.2.2 [(⟨1024, 1024, 2000000, false⟩, ⟨some 1500000, true, 1024, true, 200⟩)]
    (by intro p hp; simp at hp; subst hp; decide)⟩


/-! ### Accumulator-pool helper lemmas -/

theorem slotFor_some_inUse {pool : List WsAcc} {id : Nat} {a : WsAcc}
    (h : slotFor pool id = some a) : a.inUse = true ∧ a.id = id := by
  induction pool with
  | nil => cases h
  | cons b rest ih =>
    unfold slotFor at h
    split at h
    · rename_i hcond
      cases h
      simp only [Bool.and_eq_true, beq_iff_eq] at hcond
      exact ⟨hcond.1, hcond.2⟩
    · exact ih h

theorem accFrameStep_id (a : WsAcc) (f : Frame) : (accFrameStep a f).1.id = a.id := by
  unfold accFrameStep WsResetAcc
  dsimp only
  split_ifs <;> rfl

theorem accFrameStep_inUse (a : WsAcc) (f : Frame) : (accFrameStep a f).1.inUse = a.inUse := by
  unfold accFrameStep WsResetAcc
  dsimp only
  split_ifs <;> rfl

theorem accFrameStep_out_id (a : WsAcc) (f : Frame) :
    ∀ o ∈ (accFrameStep a f).2, outId o = f.id := by
  unfold accFrameStep WsResetAcc
  dsimp only
  split_ifs <;> intro o ho <;> simp at ho <;> subst ho <;> rfl

theorem slotFor_putAcc_self {pool : List WsAcc} {id : Nat} {a : WsAcc} (b : WsAcc)
    (h : slotFor pool id = some a) (hb1 : b.inUse = true) (hb2 : b.id = id) :
    slotFor (putAcc pool id b) id = some b := by
  induction pool with
  | nil => cases h
  | cons c rest ih =>
    unfold slotFor at h
    unfold putAcc
    split at h
    · rename_i hcond
      rw [if_pos hcond]
      unfold slotFor
      rw [if_pos (by simp [hb1, hb2])]
    · rename_i hcond
      rw [if_neg hcond]
      unfold slotFor
      rw [if_neg hcond]
      exact ih h

theorem slotFor_putAcc_other {pool : List WsAcc} (i j : Nat) (b : WsAcc)
    (hij : j ≠ i) (hb : b.id = i) :
    slotFor (putAcc pool i b) j = slotFor pool j := by
  induction pool with
  | nil => rfl
  | cons c rest ih =>
    unfold putAcc
    by_cases hcond : (c.inUse && c.id == i) = true
    · rw [if_pos hcond]
      simp only [Bool.and_eq_true, beq_iff_eq] at hcond
      unfold slotFor
      rw [if_neg (by
            simp only [Bool.and_eq_true, beq_iff_eq, hb]
            rintro ⟨-, he⟩
            exact hij he.symm),
          if_neg (by
            simp only [Bool.and_eq_true, beq_iff_eq, hcond.2]
            rintro ⟨-, he⟩
            exact hij he.symm)]
    · rw [if_neg hcond]
      unfold slotFor
      by_cases h2 : (c.inUse && c.id == j) = true
      · rw [if_pos h2, if_pos h2]
      · rw [if_neg h2, if_neg h2]
        exact ih

theorem allocAcc_slotFor_self {pool pool1 : List WsAcc} {id : Nat}
    (h : allocAcc pool id = some pool1) (hnone : slotFor pool id = none) :
    slotFor pool1 id = some (wsFreshAcc id) := by
  induction pool generalizing pool1 with
  | nil => cases h
  | cons c rest ih =>
    unfold allocAcc at h
    unfold slotFor at hnone
    split at hnone
    · cases hnone
    · rename_i hcond
      split at h
      · cases h
        unfold slotFor
        rw [if_pos (by simp [wsFreshAcc])]
      · rename_i huse
        cases hm : allocAcc rest id with
        | none => rw [hm] at h; cases h
        | some rest1 =>
          rw [hm] at h
          cases h
          unfold slotFor
          rw [if_neg hcond]
          exact ih hm hnone

theorem allocAcc_slotFor_other {pool pool1 : List WsAcc} {i : Nat} (j : Nat)
    (h : allocAcc pool i = some pool1) (hij : j ≠ i) :
    slotFor pool1 j = slotFor pool j := by
  induction pool generalizing pool1 with
  | nil => cases h
  | cons c rest ih =>
    unfold allocAcc at h
    split at h
    · rename_i hfree
      cases h
      have huse : c.inUse = false := by simpa using hfree
      unfold slotFor
      rw [if_neg (by
            simp only [wsFreshAcc, Bool.and_eq_true, beq_iff_eq]
            rintro ⟨-, he⟩
            exact hij he.symm),
          if_neg (by simp [huse])]
    · cases hm : allocAcc rest i with
      | none => rw [hm] at h; cases h
      | some rest1 =>
        rw [hm] at h
        cases h
        unfold slotFor
        by_cases h2 : (c.inUse && c.id == j) = true
        · rw [if_pos h2, if_pos h2]
        · rw [if_neg h2, if_neg h2]
          exact ih hm


theorem onWsEventData_found {pool : List WsAcc} {f : Frame} {a : WsAcc}
    (hs : slotFor pool f.id = some a) :
    onWsEventData pool f
      = (putAcc pool f.id (accFrameStep a f).1, (accFrameStep a f).2) := by
  unfold onWsEventData WsGetAcc
  rw [hs]

theorem onWsEventData_alloc {pool pool1 : List WsAcc} {f : Frame}
    (hs : slotFor pool f.id = none) (ha : allocAcc pool f.id = some pool1) :
    onWsEventData pool f
      = (putAcc pool1 f.id (accFrameStep (wsFreshAcc f.id) f).1,
         (accFrameStep (wsFreshAcc f.id) f).2) := by
  unfold onWsEventData WsGetAcc
  rw [hs, ha]

theorem onWsEventData_exhausted {pool : List WsAcc} {f : Frame}
    (hs : slotFor pool f.id = none) (ha : allocAcc pool f.id = none) :
    onWsEventData pool f = (pool, [.sendError f.id "too many ws clients"]) := by
  unfold onWsEventData WsGetAcc
  rw [hs, ha]

theorem inUseIds_cons (c : WsAcc) (rest : List WsAcc) :
    inUseIds (c :: rest) = if c.inUse then c.id :: inUseIds rest else inUseIds rest := by
  unfold inUseIds
  by_cases h : c.inUse <;> simp [List.filter_cons, h]

theorem putAcc_length (pool : List WsAcc) (id : Nat) (b : WsAcc) :
    (putAcc pool id b).length = pool.length := by
  induction pool with
  | nil => rfl
  | cons c rest ih =>
    unfold putAcc
    split
    · rfl
    · simpa using ih

theorem allocAcc_length {pool pool1 : List WsAcc} {id : Nat}
    (h : allocAcc pool id = some pool1) : pool1.length = pool.length := by
  induction pool generalizing pool1 with
  | nil => cases h
  | cons c rest ih =>
    unfold allocAcc at h
    split at h
    · cases h; rfl
    · cases hm : allocAcc rest id with
      | none => rw [hm] at h; cases h
      | some rest1 =>
        rw [hm] at h
        cases h
        simpa using ih hm

theorem inUseIds_putAcc {pool : List WsAcc} {id : Nat} {a : WsAcc} (b : WsAcc)
    (h : slotFor pool id = some a) (hb1 : b.inUse = true) (hb2 : b.id = id) :
    inUseIds (putAcc pool id b) = inUseIds pool := by
  induction pool with
  | nil => rfl
  | cons c rest ih =>
    unfold slotFor at h
    unfold putAcc
    split at h
    · rename_i hcond
      rw [if_pos hcond]
      simp only [Bool.and_eq_true, beq_iff_eq] at hcond
      rw [inUseIds_cons, inUseIds_cons, if_pos hb1, if_pos hcond.1, hb2, hcond.2]
    · rename_i hcond
      rw [if_neg hcond]
      rw [inUseIds_cons, inUseIds_cons, ih h]

theorem inUseIds_allocAcc {pool pool1 : List WsAcc} {id : Nat}
    (h : allocAcc pool id = some pool1) :
    ∃ l1 l2, inUseIds pool = l1 ++ l2 ∧ inUseIds pool1 = l1 ++ id :: l2 := by
  induction pool generalizing pool1 with
  | nil => cases h
  | cons c rest ih =>
    unfold allocAcc at h
    split at h
    · rename_i hfree
      cases h
      have huse : c.inUse = false := by simpa using hfree
      refine ⟨[], inUseIds rest, by simp [inUseIds_cons, huse], ?_⟩
      simp [inUseIds_cons, wsFreshAcc]
    · cases hm : allocAcc rest id with
      | none => rw [hm] at h; cases h
      | some rest1 =>
        rw [hm] at h
        cases h
        obtain ⟨l1, l2, h1, h2⟩ := ih hm
        by_cases hc : c.inUse
        · exact ⟨c.id :: l1, l2, by simp [inUseIds_cons, hc, h1], by simp [inUseIds_cons, hc, h2]⟩
        · exact ⟨l1, l2, by simp [inUseIds_cons, hc, h1], by simp [inUseIds_cons, hc, h2]⟩

theorem slotFor_none_not_mem {pool : List WsAcc} {id : Nat}
    (h : slotFor pool id = none) : id ∉ inUseIds pool := by
  induction pool with
  | nil => simp [inUseIds]
  | cons c rest ih =>
    unfold slotFor at h
    split at h
    · cases h
    · rename_i hcond
      rw [inUseIds_cons]
      by_cases hc : c.inUse
      · rw [if_pos hc]
        intro hmem
        rcases List.mem_cons.mp hmem with he | hm
        · exact hcond (by simp [hc, he.symm])
        · exact ih h hm
      · rw [if_neg hc]
        exact ih h

theorem allocAcc_none_length {pool : List WsAcc} {id : Nat}
    (h : allocAcc pool id = none) : (inUseIds pool).length = pool.length := by
  induction pool with
  | nil => rfl
  | cons c rest ih =>
    unfold allocAcc at h
    split at h
    · cases h
    · rename_i hn
      have hc : c.inUse = true := by
        by_cases hc : c.inUse
        · exact hc
        · exact absurd (by simp [hc]) hn
      cases hm : allocAcc rest id with
      | some rest1 => rw [hm] at h; cases h
      | none =>
        rw [inUseIds_cons, if_pos hc]
        simpa using ih hm

theorem alloc_succeeds {S : List Nat} {pool : List WsAcc} {id : Nat}
    (hWF : PoolWF pool) (hsub : ∀ x ∈ inUseIds pool, x ∈ S)
    (hlen : S.length ≤ pool.length) (hid : id ∈ S) (hnone : slotFor pool id = none) :
    allocAcc pool id ≠ none := by
  intro hcon
  have hlen2 : (inUseIds pool).length = pool.length := allocAcc_none_length hcon
  have hmem := slotFor_none_not_mem hnone
  have hsub2 : inUseIds pool ⊆ S.erase id := by
    intro x hx
    have hne : x ≠ id := by rintro rfl; exact hmem hx
    exact (List.mem_erase_of_ne hne).mpr (hsub x hx)
  have hsp := List.subperm_of_subset hWF hsub2
  have h1 : (inUseIds pool).length ≤ (S.erase id).length := hsp.length_le
  have h2 : (S.erase id).length = S.length - 1 := List.length_erase_of_mem hid
  have h3 : 0 < S.length := List.length_pos_of_mem hid
  omega


/-- The piece of pool state the simulation tracks for one client: well-formed
slots, ids drawn from the id universe `S`, room never shrinking. -/
def PoolInv (S : List Nat) (pool : List WsAcc) : Prop :=
  PoolWF pool ∧ (∀ x ∈ inUseIds pool, x ∈ S) ∧ S.length ≤ pool.length

theorem onWsEventData_out_id (pool : List WsAcc) (f : Frame) :
    ∀ o ∈ (onWsEventData pool f).2, outId o = f.id := by
  cases hs : slotFor pool f.id with
  | some a =>
    rw [onWsEventData_found hs]
    exact accFrameStep_out_id a f
  | none =>
    cases ha : allocAcc pool f.id with
    | some pool1 =>
      rw [onWsEventData_alloc hs ha]
      exact accFrameStep_out_id (wsFreshAcc f.id) f
    | none =>
      rw [onWsEventData_exhausted hs ha]
      intro o ho
      simp at ho
      subst ho
      rfl

theorem onWsEventData_sim {S : List Nat} {pool : List WsAcc} {f : Frame}
    (hinv : PoolInv S pool) (hf : f.id ∈ S) :
    slotFor (onWsEventData pool f).1 f.id
      = some (accFrameStep ((slotFor pool f.id).getD (wsFreshAcc f.id)) f).1
    ∧ (onWsEventData pool f).2 = (accFrameStep ((slotFor pool f.id).getD (wsFreshAcc f.id)) f).2
    ∧ (∀ j, j ≠ f.id → slotFor (onWsEventData pool f).1 j = slotFor pool j)
    ∧ PoolInv S (onWsEventData pool f).1 := by
  obtain ⟨hWF, hsub, hlen⟩ := hinv
  cases hs : slotFor pool f.id with
  | some a =>
    obtain ⟨ha1, ha2⟩ := slotFor_some_inUse hs
    have hb1 : (accFrameStep a f).1.inUse = true := by rw [accFrameStep_inUse]; exact ha1
    have hb2 : (accFrameStep a f).1.id = f.id := by rw [accFrameStep_id]; exact ha2
    rw [onWsEventData_found hs]
    refine ⟨?_, rfl, ?_, ?_, ?_, ?_⟩
    · exact slotFor_putAcc_self _ hs hb1 hb2
    · intro j hj
      exact slotFor_putAcc_other f.id j _ hj hb2
    · unfold PoolWF
      rw [inUseIds_putAcc _ hs hb1 hb2]
      exact hWF
    · intro x hx
      rw [inUseIds_putAcc _ hs hb1 hb2] at hx
      exact hsub x hx
    · rw [putAcc_length]
      exact hlen
  | none =>
    cases ha : allocAcc pool f.id with
    | none => exact absurd ha (alloc_succeeds hWF hsub hlen hf hs)
    | some pool1 =>
      have hfr : slotFor pool1 f.id = some (wsFreshAcc f.id) := allocAcc_slotFor_self ha hs
      have hb1 : (accFrameStep (wsFreshAcc f.id) f).1.inUse = true := by
        rw [accFrameStep_inUse]; rfl
      have hb2 : (accFrameStep (wsFreshAcc f.id) f).1.id = f.id := by
        rw [accFrameStep_id]; rfl
      obtain ⟨l1, l2, hl1, hl2⟩ := inUseIds_allocAcc ha
      have hids : inUseIds (putAcc pool1 f.id (accFrameStep (wsFreshAcc f.id) f).1)
          = l1 ++ f.id :: l2 := by
        rw [inUseIds_putAcc _ hfr hb1 hb2]
        exact hl2
      rw [onWsEventData_alloc hs ha]
      refine ⟨?_, rfl, ?_, ?_, ?_, ?_⟩
      · exact slotFor_putAcc_self _ hfr hb1 hb2
      · intro j hj
        rw [slotFor_putAcc_other f.id j _ hj hb2]
        exact allocAcc_slotFor_other j ha hj
      · unfold PoolWF
        rw [hids]
        refine List.nodup_middle.mpr (List.nodup_cons.mpr ⟨?_, ?_⟩)
        · rw [← hl1]
          exact slotFor_none_not_mem hs
        · rw [← hl1]
          exact hWF
      · intro x hx
        rw [hids] at hx
        rcases List.mem_append.mp hx with h1 | h2
        · exact hsub x (by rw [hl1]; exact List.mem_append.mpr (.inl h1))
        · rcases List.mem_cons.mp h2 with he | h3
          · rw [he]; exact hf
          · exact hsub x (by rw [hl1]; exact List.mem_append.mpr (.inr h3))
      · rw [putAcc_length, allocAcc_length ha]
        exact hlen

theorem wsRunFrames_sim {S : List Nat} (fs : List Frame) (pool : List WsAcc)
    (hinv : PoolInv S pool) (hids : ∀ f ∈ fs, f.id ∈ S) (i : Nat) :
    slotFor (wsRunFrames pool fs).1 i
      = (accRunFromOpt (slotFor pool i) i (fs.filter (fun f => f.id == i))).1
    ∧ (wsRunFrames pool fs).2.filter (fun o => outId o == i)
      = (accRunFromOpt (slotFor pool i) i (fs.filter (fun f => f.id == i))).2
    ∧ PoolInv S (wsRunFrames pool fs).1 := by
  induction fs generalizing pool with
  | nil => exact ⟨rfl, rfl, hinv⟩
  | cons f rest ih =>
    have hf : f.id ∈ S := hids f (by simp)
    obtain ⟨hself, hout, hother, hinv2⟩ := onWsEventData_sim hinv hf
    have hrest : ∀ g ∈ rest, g.id ∈ S := fun g hg => hids g (by simp [hg])
    by_cases hfi : f.id = i
    · subst hfi
      obtain ⟨ih1, ih2, ih3⟩ := ih (onWsEventData pool f).1 hinv2 hrest
      refine ⟨?_, ?_, ?_⟩
      · show slotFor (wsRunFrames (onWsEventData pool f).1 rest).1 f.id = _
        rw [ih1, hself]
        simp only [List.filter_cons, beq_self_eq_true, if_true, accRunFromOpt]
      · show ((onWsEventData pool f).2 ++ (wsRunFrames (onWsEventData pool f).1 rest).2).filter _ = _
        rw [List.filter_append]
        have hkeep : (onWsEventData pool f).2.filter (fun o => outId o == f.id)
            = (onWsEventData pool f).2 := by
          rw [List.filter_eq_self]
          intro o ho
          simp [onWsEventData_out_id pool f o ho]
        rw [hkeep, hout, ih2, hself]
        simp only [List.filter_cons, beq_self_eq_true, if_true, accRunFromOpt]
      · exact ih3
    · obtain ⟨ih1, ih2, ih3⟩ := ih (onWsEventData pool f).1 hinv2 hrest
      refine ⟨?_, ?_, ?_⟩
      · show slotFor (wsRunFrames (onWsEventData pool f).1 rest).1 i = _
        rw [ih1, hother i (fun he => hfi he.symm)]
        simp only [List.filter_cons]
        rw [if_neg (by simpa using hfi)]
      · show ((onWsEventData pool f).2 ++ (wsRunFrames (onWsEventData pool f).1 rest).2).filter _ = _
        rw [List.filter_append]
        have hdrop : (onWsEventData pool f).2.filter (fun o => outId o == i) = [] := by
          rw [List.filter_eq_nil_iff]
          intro o ho
          simp [onWsEventData_out_id pool f o ho, hfi]
        rw [hdrop, ih2, hother i (fun he => hfi he.symm)]
        simp only [List.filter_cons]
        rw [if_neg (by simpa using hfi)]
        rfl
      · exact ih3


theorem accFrameStep_cont_opcode0 (a : WsAcc) (g : Frame) (hi : g.index ≠ 0)
    (hop : a.firstOpcode = 0) :
    (accFrameStep a g).1.firstOpcode = 0
    ∧ ∀ o ∈ (accFrameStep a g).2, isDispatchOut o = false := by
  unfold accFrameStep WsResetAcc
  by_cases hf : g.final = false <;>
    simp [hi, hf, hop, WS_TEXT, WS_BINARY, isDispatchOut]

theorem contRun_no_dispatch (conts : List Frame) (pool : List WsAcc) (i : Nat)
    (hconts : ∀ g ∈ conts, g.id = i ∧ g.index ≠ 0)
    (a : WsAcc) (hs : slotFor pool i = some a) (hop : a.firstOpcode = 0) :
    (wsRunFrames pool conts).2.filter isDispatchOut = [] := by
  induction conts generalizing pool a with
  | nil => rfl
  | cons g rest ih =>
    obtain ⟨hgid, hgidx⟩ := hconts g (by simp)
    subst hgid
    obtain ⟨ha1, ha2⟩ := slotFor_some_inUse hs
    obtain ⟨hop2, hnd⟩ := accFrameStep_cont_opcode0 a g hgidx hop
    have hb1 : (accFrameStep a g).1.inUse = true := by rw [accFrameStep_inUse]; exact ha1
    have hb2 : (accFrameStep a g).1.id = g.id := by rw [accFrameStep_id]; exact ha2
    simp only [wsRunFrames]
    rw [onWsEventData_found hs]
    rw [List.filter_append]
    have h1 : (accFrameStep a g).2.filter isDispatchOut = [] := by
      rw [List.filter_eq_nil_iff]
      intro o ho
      simp [hnd o ho]
    rw [h1]
    have hs3 : slotFor (putAcc pool g.id (accFrameStep a g).1) g.id
        = some (accFrameStep a g).1 :=
      slotFor_putAcc_self _ hs hb1 hb2
    rw [ih _ (fun q hq => hconts q (List.mem_cons_of_mem g hq)) _ hs3 hop2]
    rfl

theorem accFrameStep_oversize (a : WsAcc) (f : Frame) (hi : f.index = 0)
    (hlen : WS_MAX_PAYLOAD < f.declLen) :
    accFrameStep a f
      = ({ a with buf := [], expectedLen := 0, firstOpcode := 0 },
         [.sendError f.id "payload too large"]) := by
  unfold accFrameStep WsResetAcc
  simp [hi, hlen]

theorem accRunFromOpt_cont (fs : List Frame) (i : Nat) (a : WsAcc)
    (ha : a.firstOpcode = WS_TEXT) (h : contFramesOk i fs = true) :
    (accRunFromOpt (some a) i fs).2
      = [.dispatchText i (a.buf ++ ((fs.map (fun f => f.payload)).flatten))] := by
  induction fs generalizing a with
  | nil => cases h
  | cons g rest ih =>
    cases rest with
    | nil =>
      rw [show contFramesOk i [g]
            = (g.id == i && decide (g.index ≠ 0) && g.final) from rfl] at h
      simp only [Bool.and_eq_true, beq_iff_eq, decide_eq_true_eq] at h
      obtain ⟨⟨hgid, hgidx⟩, h2⟩ := h
      simp only [accRunFromOpt, Option.getD_some]
      unfold accFrameStep WsResetAcc
      simp [hgidx, h2, ha, WS_TEXT, hgid]
    | cons g2 rest2 =>
      rw [show contFramesOk i (g :: g2 :: rest2)
            = (g.id == i && decide (g.index ≠ 0)
               && (!g.final && contFramesOk i (g2 :: rest2))) from rfl] at h
      simp only [Bool.and_eq_true, beq_iff_eq, decide_eq_true_eq, Bool.not_eq_true'] at h
      obtain ⟨⟨hgid, hgidx⟩, hfin, hc⟩ := h
      have hstep : accFrameStep a g = ({ a with buf := a.buf ++ g.payload }, []) := by
        unfold accFrameStep WsResetAcc
        simp [hgidx, hfin]
      rw [show (accRunFromOpt (some a) i (g :: g2 :: rest2)).2
            = (accFrameStep a g).2
              ++ (accRunFromOpt (some (accFrameStep a g).1) i (g2 :: rest2)).2 from rfl,
         hstep]
      dsimp only
      rw [ih { a with buf := a.buf ++ g.payload }
            (show ({ a with buf := a.buf ++ g.payload } : WsAcc).firstOpcode = WS_TEXT from ha) hc]
      simp [List.append_assoc]

theorem accRunFromOpt_oneMsg (fs : List Frame) (i : Nat) (s : Option WsAcc)
    (h : oneMsgOk i fs = true) :
    (accRunFromOpt s i fs).2
      = [.dispatchText i ((fs.map (fun f => f.payload)).flatten)] := by
  cases fs with
  | nil => cases h
  | cons f rest =>
    cases rest with
    | nil =>
      rw [show oneMsgOk i [f]
            = (f.id == i && f.index == 0 && f.opcode == WS_TEXT
               && decide (f.declLen ≤ WS_MAX_PAYLOAD) && f.final) from rfl] at h
      simp only [Bool.and_eq_true, beq_iff_eq, decide_eq_true_eq] at h
      obtain ⟨⟨⟨⟨hfid, hfidx⟩, hop⟩, hlen⟩, h2⟩ := h
      simp only [accRunFromOpt]
      unfold accFrameStep WsResetAcc
      simp [hfidx, h2, hop, Nat.not_lt.mpr hlen, WS_TEXT, hfid]
    | cons g2 rest2 =>
      rw [show oneMsgOk i (f :: g2 :: rest2)
            = (f.id == i && f.index == 0 && f.opcode == WS_TEXT
               && decide (f.declLen ≤ WS_MAX_PAYLOAD)
               && (!f.final && contFramesOk i (g2 :: rest2))) from rfl] at h
      simp only [Bool.and_eq_true, beq_iff_eq, decide_eq_true_eq, Bool.not_eq_true'] at h
      obtain ⟨⟨⟨⟨hfid, hfidx⟩, hop⟩, hlen⟩, hfin, hc⟩ := h
      have hstep : accFrameStep (s.getD (wsFreshAcc i)) f
          = ({ s.getD (wsFreshAcc i) with
                buf := f.payload, firstOpcode := f.opcode, expectedLen := f.declLen }, []) := by
        unfold accFrameStep WsResetAcc
        simp [hfidx, hfin, Nat.not_lt.mpr hlen]
      rw [show (accRunFromOpt s i (f :: g2 :: rest2)).2
            = (accFrameStep (s.getD (wsFreshAcc i)) f).2
              ++ (accRunFromOpt (some (accFrameStep (s.getD (wsFreshAcc i)) f).1) i
                    (g2 :: rest2)).2 from rfl,
         hstep]
      dsimp only
      rw [accRunFromOpt_cont (g2 :: rest2) i _ (by simp [hop]) hc]
      simp


theorem slotFor_replicate_default (n i : Nat) :
    slotFor (List.replicate n wsAccDefault) i = none := by
  induction n with
  | zero => rfl
  | succ n ih =>
    rw [List.replicate_succ]
    unfold slotFor
    rw [if_neg (by simp [wsAccDefault])]
    exact ih

theorem slotFor_initPool (i : Nat) : slotFor initPool i = none :=
  slotFor_replicate_default 4 i

theorem poolInv_initPool {S : List Nat} (hlen : S.length ≤ WS_MAX_CLIENTS) :
    PoolInv S initPool := by
  refine ⟨?_, ?_, ?_⟩
  · unfold PoolWF
    have he : inUseIds initPool = [] := rfl
    rw [he]
    exact List.nodup_nil
  · intro x hx
    have he : inUseIds initPool = [] := rfl
    rw [he] at hx
    cases hx
  · simpa [initPool, WS_MAX_CLIENTS] using hlen

/-- C3: a first frame declaring a length above WS_MAX_PAYLOAD is answered
with the "payload too large" error, the accumulator slot is reset (empty
buffer, opcode and expected length cleared), and no matter how many
continuation frames of that message follow, no partial reconstruction is
ever forwarded to the dispatcher: the outputs of processing the
continuation frames contain no dispatch at all. -/
theorem c3_payload_too_large (pool : List WsAcc) (f : Frame)
    (hroom : (WsGetAcc pool f.id).isSome = true) (hi : f.index = 0)
    (hlen : WS_MAX_PAYLOAD < f.declLen) :
    (onWsEventData pool f).2 = [.sendError f.id "payload too large"]
    ∧ slotFor (onWsEventData pool f).1 f.id = some (wsFreshAcc f.id)
    ∧ ∀ conts : List Frame, (∀ g ∈ conts, g.id = f.id ∧ g.index ≠ 0) →
        (wsRunFrames (onWsEventData pool f).1 conts).2.filter isDispatchOut = [] := by
  rcases hcase : slotFor pool f.id with _ | a
  · rcases hacase : allocAcc pool f.id with _ | pool1
    · unfold WsGetAcc at hroom
      rw [hcase, hacase] at hroom
      cases hroom
    · have hov := accFrameStep_oversize (wsFreshAcc f.id) f hi hlen
      have hb : ({ wsFreshAcc f.id with buf := [], expectedLen := 0, firstOpcode := 0 } : WsAcc)
          = wsFreshAcc f.id := rfl
      rw [hb] at hov
      have hfr : slotFor pool1 f.id = some (wsFreshAcc f.id) :=
        allocAcc_slotFor_self hacase hcase
      have heq := onWsEventData_alloc hcase hacase
      rw [hov] at heq
      have hput : slotFor (putAcc pool1 f.id (wsFreshAcc f.id)) f.id
          = some (wsFreshAcc f.id) :=
        slotFor_putAcc_self _ hfr rfl rfl
      refine ⟨by rw [heq], by rw [heq]; exact hput, ?_⟩
      intro conts hconts
      rw [heq]
      exact contRun_no_dispatch conts _ f.id hconts (wsFreshAcc f.id) hput rfl
  · obtain ⟨ha1, ha2⟩ := slotFor_some_inUse hcase
    have hov := accFrameStep_oversize a f hi hlen
    have hb : ({ a with buf := [], expectedLen := 0, firstOpcode := 0 } : WsAcc)
        = wsFreshAcc f.id := by
      obtain ⟨aid, ain, aop, alen, abuf⟩ := a
      simp only at ha1 ha2
      simp [wsFreshAcc, ha1, ha2]
    rw [hb] at hov
    have heq := onWsEventData_found hcase
    rw [hov] at heq
    have hput : slotFor (putAcc pool f.id (wsFreshAcc f.id)) f.id
        = some (wsFreshAcc f.id) :=
      slotFor_putAcc_self _ hcase rfl rfl
    refine ⟨by rw [heq], by rw [heq]; exact hput, ?_⟩
    intro conts hconts
    rw [heq]
    exact contRun_no_dispatch conts _ f.id hconts (wsFreshAcc f.id) hput rfl

/-- C3 witness: a first frame for client 7 declaring 9000 bytes (over the
8 KiB limit), followed by two continuation frames, the last one final:
the error is sent and no dispatch output is produced. -/
theorem c3_payload_too_large_witness :
    (onWsEventData initPool ⟨7, 0, 1, 9000, false, [1, 2, 3]⟩).2
        = [.sendError 7 "payload too large"]
    ∧ (wsRunFrames (onWsEventData initPool ⟨7, 0, 1, 9000, false, [1, 2, 3]⟩).1
         [⟨7, 1, 0, 0, false, [4]⟩, ⟨7, 2, 0, 0, true, [5]⟩]).2.filter isDispatchOut = [] := by
  have h := c3_payload_too_large initPool ⟨7, 0, 1, 9000, false, [1, 2, 3]⟩
    (by decide) rfl (by decide)
  exact ⟨h.1, h.2.2 [⟨7, 1, 0, 0, false, [4]⟩, ⟨7, 2, 0, 0, true, [5]⟩] (by decide)⟩

/-- C4: for any interleaving of frames from at most WS_MAX_CLIENTS ids
(ids drawn from a universe `S` of at most pool capacity), if the frames of
client `i` form one complete TEXT message within the payload limit, then
the outputs addressed to `i` are exactly one dispatch of the concatenation
of the payloads of the frames of `i` in arrival order — independent of how
the other clients' frames are interleaved — and after processing any
prefix of the trace the in-use accumulator slots are bound to pairwise
distinct ids (no sharing or overwriting between clients). -/
theorem c4_interleaving_reconstruction (S : List Nat) (hlen : S.length ≤ WS_MAX_CLIENTS)
    (fs : List Frame) (hids : ∀ f ∈ fs, f.id ∈ S) (i : Nat)
    (hmsg : oneMsgOk i (fs.filter (fun f => f.id == i)) = true) :
    (wsRunFrames initPool fs).2.filter (fun o => outId o == i)
      = [.dispatchText i (((fs.filter (fun f => f.id == i)).map (fun f => f.payload)).flatten)]
    ∧ ∀ t1 t2, fs = t1 ++ t2 → PoolWF (wsRunFrames initPool t1).1 := by
  have hinv := poolInv_initPool (S := S) hlen
  obtain ⟨h1, h2, h3⟩ := wsRunFrames_sim fs initPool hinv hids i
  constructor
  · rw [h2, slotFor_initPool]
    exact accRunFromOpt_oneMsg _ i none hmsg
  · intro t1 t2 ht
    subst ht
    have hids1 : ∀ f ∈ t1, f.id ∈ S := fun f hf => hids f (List.mem_append.mpr (.inl hf))
    exact (wsRunFrames_sim t1 initPool hinv hids1 i).2.2.1

/-- C4 witness: clients 1 and 2 interleave three-fragment and two-fragment
text messages frame by frame; client 1 receives exactly its own
reconstruction. -/
theorem c4_interleaving_reconstruction_witness :
    (wsRunFrames initPool
        [⟨1, 0, 1, 6, false, [10, 11]⟩, ⟨2, 0, 1, 4, false, [20]⟩,
         ⟨1, 1, 0, 0, false, [12]⟩, ⟨2, 1, 0, 0, true, [21, 22, 23]⟩,
         ⟨1, 2, 0, 0, true, [13, 14]⟩]).2.filter (fun o => outId o == 1)
      = [.dispatchText 1 [10, 11, 12, 13, 14]] := by
  have h := c4_interleaving_reconstruction [1, 2] (by decide)
    [⟨1, 0, 1, 6, false, [10, 11]⟩, ⟨2, 0, 1, 4, false, [20]⟩,
     ⟨1, 1, 0, 0, false, [12]⟩, ⟨2, 1, 0, 0, true, [21, 22, 23]⟩,
     ⟨1, 2, 0, 0, true, [13, 14]⟩] (by decide) 1 (by decide)
  exact h.1.trans (by decide)


end RoBoRa
